import Mathlib

/-!
Verification development for the Popula demographic projection worker.

The Rust sources under `src/worker/src` are shallowly embedded here:
`f64` population counts and rates become `ℚ` (the claims are settled in
exact real arithmetic), `HashMap<String, f64>` keyed by cohort becomes an
association list with unique keys, and the per-year projection loops become
folds over the same iteration domains the Rust code uses.
-/

namespace Popula

/-- Gender enumeration (engine/types.rs). -/
inductive Gender
  | male
  | female
deriving DecidableEq, Repr

/-- Shock type (engine/types.rs). -/
inductive ShockType
  | mortality
  | fertility
  | migration
deriving DecidableEq, Repr

/-- Age group representation (engine/types.rs). -/
structure AgeGroup where
  min : Nat
  max : Nat
deriving DecidableEq, Repr

/-- `AgeGroup::contains`: `age >= self.min && age <= self.max`. -/
def AgeGroup.contains (g : AgeGroup) (age : Nat) : Bool :=
  decide (g.min ≤ age) && decide (age ≤ g.max)

/-- A population cohort (engine/types.rs `Cohort`). -/
structure Cohort where
  age : Nat
  gender : Gender
  region_id : String
  count : ℚ
deriving DecidableEq, Repr

/-- The key of one cohort: the Rust engines key their `HashMap<String, f64>` by
strings such as "age:M:region" (ccm.rs) or "age-male-region" (projection.rs);
both encodings are injective on (age, gender, region), so we key directly by
the triple. -/
abbrev CohortKey := Nat × Gender × String

/-- A population table: the embedding of `HashMap<String, f64>`. The list is
kept with unique keys by construction (`addTo`/`insertKV` never duplicate a
key), mirroring a hash map. -/
abbrev PopMap := List (CohortKey × ℚ)

/-- `HashMap::get(...).copied().unwrap_or(0.0)`: the stored count, 0 if absent. -/
def mget (m : PopMap) (k : CohortKey) : ℚ :=
  match m with
  | [] => 0
  | (k', v) :: rest => if k' = k then v else mget rest k

/-- `HashMap::values().sum()`: the sum of all stored counts. -/
def mtotal (m : PopMap) : ℚ :=
  (m.map (fun e => e.2)).sum

/-- `*map.entry(key).or_insert(0.0) += v`: add `v` to the entry at `k`,
inserting it at 0 first when absent. -/
def addTo (m : PopMap) (k : CohortKey) (v : ℚ) : PopMap :=
  match m with
  | [] => [(k, v)]
  | (k', v') :: rest =>
    if k' = k then (k', v' + v) :: rest else (k', v') :: addTo rest k v

/-- `HashMap::insert(key, v)`: replace the entry at `k` (or append it). -/
def insertKV (m : PopMap) (k : CohortKey) (v : ℚ) : PopMap :=
  match m with
  | [] => [(k, v)]
  | (k', v') :: rest =>
    if k' = k then (k', v) :: rest else (k', v') :: insertKV rest k v

/-- Lookup in a `HashMap<String, T>` of rate tables keyed by region id. -/
def tlookup {α : Type} (m : List (String × α)) (r : String) : Option α :=
  match m with
  | [] => none
  | (k, t) :: rest => if k = r then some t else tlookup rest r

/-- `HashMap::insert` for a region-keyed table map: most recent load wins. -/
def tinsert {α : Type} (m : List (String × α)) (r : String) (t : α) :
    List (String × α) :=
  match m with
  | [] => [(r, t)]
  | (k, t') :: rest =>
    if k = r then (k, t) :: rest else (k, t') :: tinsert rest r t

/-- `f64::min` on exact rationals. -/
def rmin (a b : ℚ) : ℚ :=
  if a ≤ b then a else b

/-- `f64::max` on exact rationals. -/
def rmax (a b : ℚ) : ℚ :=
  if a ≤ b then b else a

/-- `f64::clamp(0.0, 1.0)` as used on rates: first raised to 0, then capped at 1. -/
def clampRate (q : ℚ) : ℚ :=
  rmin (rmax q 0) 1

/-- One row of a mortality table (engine/types.rs `MortalityRate`). -/
structure MortalityRate where
  age : Nat
  male : ℚ
  female : ℚ
deriving DecidableEq, Repr

/-- A mortality table (engine/types.rs `MortalityTable`). -/
structure MortalityTable where
  region_id : String
  year : Nat
  rates : List MortalityRate
deriving DecidableEq, Repr

/-- `MortalityTable::get_rate`: first row with the given age, defaulting to
1 (100% mortality) when the age has no row. -/
def MortalityTable.get_rate (t : MortalityTable) (age : Nat) (g : Gender) : ℚ :=
  match t.rates.find? (fun r => decide (r.age = age)) with
  | some r => match g with
    | Gender.male => r.male
    | Gender.female => r.female
  | none => 1

/-- One row of a fertility table (engine/types.rs `FertilityRate`). -/
structure FertilityRate where
  age : Nat
  rate : ℚ
deriving DecidableEq, Repr

/-- A fertility table (engine/types.rs `FertilityTable`). -/
structure FertilityTable where
  region_id : String
  year : Nat
  rates : List FertilityRate
  sex_ratio_at_birth : ℚ
deriving DecidableEq, Repr

/-- `FertilityTable::get_rate`: first row with the given age, defaulting to 0. -/
def FertilityTable.get_rate (t : FertilityTable) (age : Nat) : ℚ :=
  match t.rates.find? (fun r => decide (r.age = age)) with
  | some r => r.rate
  | none => 0

/-- Modelled from the spec: one row of a migration table. The struct
`MigrationRate` is constructed in `handlers/projection_handler.rs` with
fields age, male, female, but its definition is not among the repository
files under src/. -/
structure MigrationRate where
  age : Nat
  male : ℚ
  female : ℚ
deriving DecidableEq, Repr

/-- Modelled from the spec: a migration table. `MigrationTable` is used by
`ccm.rs` and constructed in `handlers/projection_handler.rs` (region_id,
year, rates) but its definition is not among the repository files under
src/. Per spec section 3, an entry is a signed net migrant count per
age/gender. -/
structure MigrationTable where
  region_id : String
  year : Nat
  rates : List MigrationRate
deriving DecidableEq, Repr

/-- Modelled from the spec: `MigrationTable::get_rate(age, gender)` as called
by `ccm.rs`. Spec section 4.2: migration unknown age defaults to 0.0; the
lookup shape follows the sibling tables (first row with the given age). -/
def MigrationTable.get_rate (t : MigrationTable) (age : Nat) (g : Gender) : ℚ :=
  match t.rates.find? (fun r => decide (r.age = age)) with
  | some r => match g with
    | Gender.male => r.male
    | Gender.female => r.female
  | none => 0

/-- Single-year projection summary (engine/types.rs `ProjectionYear`). -/
structure ProjectionYear where
  year : Nat
  total_population : ℚ
  births : ℚ
  deaths : ℚ
  net_migration : ℚ
  natural_change : ℚ
  growth_rate : ℚ
deriving DecidableEq, Repr

/-- Maximum age in the model (ccm.rs `MAX_AGE`, open-ended interval). -/
def MAX_AGE : Nat := 120

/-- The Cohort-Component Model state (ccm.rs `CohortComponentModel`). -/
structure CohortComponentModel where
  population : PopMap
  mortality_tables : List (String × MortalityTable)
  fertility_tables : List (String × FertilityTable)
  migration_tables : List (String × MigrationTable)

namespace CohortComponentModel

/-- `CohortComponentModel::new`. -/
def new : CohortComponentModel :=
  ⟨[], [], [], []⟩

/-- `CohortComponentModel::load_population`: clear, then sum duplicate keys. -/
def load_population (m : CohortComponentModel) (cohorts : List Cohort) :
    CohortComponentModel :=
  { m with population :=
      cohorts.foldl (fun p c => addTo p (c.age, c.gender, c.region_id) c.count) [] }

/-- `CohortComponentModel::load_mortality_table`. -/
def load_mortality_table (m : CohortComponentModel) (t : MortalityTable) :
    CohortComponentModel :=
  { m with mortality_tables := tinsert m.mortality_tables t.region_id t }

/-- `CohortComponentModel::load_fertility_table`. -/
def load_fertility_table (m : CohortComponentModel) (t : FertilityTable) :
    CohortComponentModel :=
  { m with fertility_tables := tinsert m.fertility_tables t.region_id t }

/-- `CohortComponentModel::load_migration_table`. -/
def load_migration_table (m : CohortComponentModel) (t : MigrationTable) :
    CohortComponentModel :=
  { m with migration_tables := tinsert m.migration_tables t.region_id t }

/-- `CohortComponentModel::get_count`. -/
def get_count (m : CohortComponentModel) (age : Nat) (g : Gender)
    (region_id : String) : ℚ :=
  mget m.population (age, g, region_id)

/-- `CohortComponentModel::total_population`. -/
def total_population (m : CohortComponentModel) : ℚ :=
  mtotal m.population

/-- `CohortComponentModel::get_mortality_rate`: defaults to 1 for a region
with no table. -/
def get_mortality_rate (m : CohortComponentModel) (age : Nat) (g : Gender)
    (region_id : String) : ℚ :=
  match tlookup m.mortality_tables region_id with
  | some t => t.get_rate age g
  | none => 1

/-- `CohortComponentModel::get_fertility_rate`: defaults to 0. -/
def get_fertility_rate (m : CohortComponentModel) (age : Nat)
    (region_id : String) : ℚ :=
  match tlookup m.fertility_tables region_id with
  | some t => t.get_rate age
  | none => 0

/-- `CohortComponentModel::get_sex_ratio_at_birth`: defaults to 105. -/
def get_sex_ratio_at_birth (m : CohortComponentModel) (region_id : String) : ℚ :=
  match tlookup m.fertility_tables region_id with
  | some t => t.sex_ratio_at_birth
  | none => 105

/-- `CohortComponentModel::get_migration_rate`: defaults to 0. -/
def get_migration_rate (m : CohortComponentModel) (age : Nat) (g : Gender)
    (region_id : String) : ℚ :=
  match tlookup m.migration_tables region_id with
  | some t => t.get_rate age g
  | none => 0

/-- The fertile ages iterated by `calculate_births`: 15..=49. -/
def fertileAges : List Nat := List.range' 15 35

/-- `CohortComponentModel::calculate_births`:
(total_births, male_births, female_births) for one region. -/
def calculate_births (m : CohortComponentModel) (region_id : String) :
    ℚ × ℚ × ℚ :=
  let total_births := fertileAges.foldl
    (fun acc age =>
      let women := mget m.population (age, Gender.female, region_id)
      if women ≤ 0 then acc
      else acc + women * m.get_fertility_rate age region_id) 0
  if total_births ≤ 0 then (0, 0, 0)
  else
    let sex_ratio := m.get_sex_ratio_at_birth region_id
    let male_proportion := sex_ratio / (sex_ratio + 100)
    (total_births, total_births * male_proportion,
      total_births * (1 - male_proportion))

end CohortComponentModel

/-- The migration block of `project_one_year` (ccm.rs lines 183-196) on one
count: (post-migration count, amount added to `total_migration`). -/
def migStep (count migration : ℚ) : ℚ × ℚ :=
  if migration ≠ 0 then
    if migration > 0 then (count + migration, migration)
    else
      let emigrants := rmin (-migration) count
      (count - emigrants, -emigrants)
  else (count, 0)

/-- The running accumulator of `project_one_year`: the new population map
being built and the births/deaths/migration tallies. -/
structure StepAcc where
  new_population : PopMap
  births : ℚ
  deaths : ℚ
  migration : ℚ
deriving DecidableEq, Repr

namespace CohortComponentModel

/-- The body of the per-cohort loop of `project_one_year` (ccm.rs lines
179-217): migration, mortality, aging for one (age, gender) cohort of one
region. `m.population` is the pre-step state throughout the year. -/
def stepCohort (m : CohortComponentModel) (region_id : String) (age : Nat)
    (g : Gender) (acc : StepAcc) : StepAcc :=
  let count₀ := mget m.population (age, g, region_id)
  let migration := m.get_migration_rate age g region_id
  let moved := migStep count₀ migration
  let count := moved.1
  let acc := { acc with migration := acc.migration + moved.2 }
  if count ≤ 0 then acc
  else
    let mortality_rate := clampRate (m.get_mortality_rate age g region_id)
    let deaths := count * mortality_rate
    let survivors := count - deaths
    let acc := { acc with deaths := acc.deaths + deaths }
    if survivors > 0 then
      let new_age := if age ≥ MAX_AGE then MAX_AGE else age + 1
      let np := addTo acc.new_population (new_age, g, region_id) survivors
      { acc with new_population := np }
    else acc

/-- The (age, gender) iteration domain of both engines:
`for age in 0..=120 { for gender in [Male, Female] }`. -/
def agePairs : List (Nat × Gender) :=
  (List.range 121).flatMap (fun a => [(a, Gender.male), (a, Gender.female)])

/-- The body of the per-region loop of `project_one_year` (ccm.rs lines
161-219): births first (newborns inserted at age 0 when positive), then the
per-cohort migration/mortality/aging pass. -/
def stepRegion (m : CohortComponentModel) (acc : StepAcc) (region_id : String) :
    StepAcc :=
  let b := m.calculate_births region_id
  let acc := { acc with births := acc.births + b.1 }
  let acc := if b.2.1 > 0 then
      let np := addTo acc.new_population (0, Gender.male, region_id) b.2.1
      { acc with new_population := np }
    else acc
  let acc := if b.2.2 > 0 then
      let np := addTo acc.new_population (0, Gender.female, region_id) b.2.2
      { acc with new_population := np }
    else acc
  agePairs.foldl (fun a p => m.stepCohort region_id p.1 p.2 a) acc

/-- `CohortComponentModel::project_one_year`: one CCM year step. Returns the
mutated model (the new population replaces the old wholesale) and the
`ProjectionYear` summary. -/
def project_one_year (m : CohortComponentModel) (year : Nat)
    (regions : List String) : CohortComponentModel × ProjectionYear :=
  let initial_population := mtotal m.population
  let acc := regions.foldl m.stepRegion ⟨[], 0, 0, 0⟩
  let final_population := mtotal acc.new_population
  let natural_change := acc.births - acc.deaths
  let growth_rate :=
    if initial_population > 0 then
      (final_population - initial_population) / initial_population * 100
    else if final_population > 0 then 100
    else 0
  ({ m with population := acc.new_population },
    ⟨year, final_population, acc.births, acc.deaths, acc.migration,
      natural_change, growth_rate⟩)

end CohortComponentModel

/-- A shock modifier (engine/types.rs `Shock`): empty target lists and an
absent age range mean "all". -/
structure Shock where
  id : String
  name : String
  description : Option String
  shock_type : ShockType
  start_year : Nat
  end_year : Nat
  target_regions : List String
  target_genders : List Gender
  target_ages : Option AgeGroup
  modifier : ℚ
deriving DecidableEq, Repr

/-- `Shock::applies_to` (engine/types.rs lines 199-223). -/
def Shock.applies_to (s : Shock) (year : Nat) (region_id : String)
    (gender : Gender) (age : Nat) : Bool :=
  if decide (year < s.start_year) || decide (year > s.end_year) then false
  else if !s.target_regions.isEmpty
      && !(s.target_regions.any (fun r => decide (r = region_id))) then false
  else if !s.target_genders.isEmpty
      && !(s.target_genders.any (fun g => decide (g = gender))) then false
  else
    match s.target_ages with
    | some age_group => age_group.contains age
    | none => true

/-- Scenario definition (engine/types.rs `Scenario`; the sibling definition in
types/scenario.rs has the same fields relevant to validation). -/
structure Scenario where
  id : String
  name : String
  description : String
  base_year : Nat
  end_year : Nat
  regions : List String
  shocks : List Shock
  created_at : String
  updated_at : String
deriving Repr

/-- Result of scenario validation (types/scenario.rs). -/
structure ScenarioValidationResult where
  valid : Bool
  errors : List String
deriving DecidableEq, Repr

/-- `Scenario::validate` (types/scenario.rs lines 22-63). The error strings
follow the source; the two shock messages drop the quoted shock name the
source interpolates. -/
def Scenario.validate (s : Scenario) : ScenarioValidationResult :=
  let errors : List String := []
  let errors := if s.id.trim = "" then errors ++ ["Scenario ID is required"] else errors
  let errors := if s.name.trim = "" then errors ++ ["Scenario name is required"] else errors
  let errors := if s.base_year ≥ s.end_year then
      errors ++ ["Base year must be before end year"] else errors
  let errors := if s.base_year < 1950 || s.base_year > 2100 then
      errors ++ ["Base year must be between 1950 and 2100"] else errors
  let errors := if s.end_year < 1950 || s.end_year > 2200 then
      errors ++ ["End year must be between 1950 and 2200"] else errors
  let errors := if s.regions.isEmpty then
      errors ++ ["At least one region is required"] else errors
  let errors := s.shocks.foldl
    (fun errs shock =>
      let errs := if shock.start_year < s.base_year then
          errs ++ ["Shock " ++ shock.name ++ " starts before scenario base year"]
        else errs
      if shock.end_year > s.end_year then
        errs ++ ["Shock " ++ shock.name ++ " ends after scenario end year"]
      else errs) errors
  ⟨errors.isEmpty, errors⟩

/-- Complete projection result (engine/types.rs `ProjectionResult`). The
wall-clock fields computed_at and compute_time_ms are ambient effects and are
not modelled. -/
structure ProjectionResult where
  scenario_id : String
  base_year : Nat
  end_year : Nat
  years : List ProjectionYear
deriving DecidableEq, Repr

/-- The Demographic Engine state (engine/projection.rs `DemographicEngine`). -/
structure DemographicEngine where
  population : PopMap
  mortality_tables : List (String × MortalityTable)
  fertility_tables : List (String × FertilityTable)
  shocks : List Shock

namespace DemographicEngine

/-- `DemographicEngine::new`. -/
def new : DemographicEngine :=
  ⟨[], [], [], []⟩

/-- `DemographicEngine::load_population`: clear, then plain insert per cohort
(a duplicate key keeps the last count, unlike the CCM loader). -/
def load_population (e : DemographicEngine) (cohorts : List Cohort) :
    DemographicEngine :=
  { e with population :=
      cohorts.foldl (fun p c => insertKV p (c.age, c.gender, c.region_id) c.count) [] }

/-- `DemographicEngine::load_mortality_table`. -/
def load_mortality_table (e : DemographicEngine) (t : MortalityTable) :
    DemographicEngine :=
  { e with mortality_tables := tinsert e.mortality_tables t.region_id t }

/-- `DemographicEngine::load_fertility_table`. -/
def load_fertility_table (e : DemographicEngine) (t : FertilityTable) :
    DemographicEngine :=
  { e with fertility_tables := tinsert e.fertility_tables t.region_id t }

/-- `DemographicEngine::get_cohort_count`. -/
def get_cohort_count (e : DemographicEngine) (age : Nat) (g : Gender)
    (region_id : String) : ℚ :=
  mget e.population (age, g, region_id)

/-- `DemographicEngine::apply_shocks` (projection.rs lines 98-113): multiply
the base value by the modifier of every shock of the requested kind that
applies, in registration order, then clamp with `.max(0.0).min(1.0)`. -/
def apply_shocks (e : DemographicEngine) (shock_type : ShockType)
    (base_value : ℚ) (year : Nat) (age : Nat) (gender : Gender)
    (region_id : String) : ℚ :=
  let value := e.shocks.foldl
    (fun value shock =>
      if shock.shock_type ≠ shock_type then value
      else if shock.applies_to year region_id gender age then
        value * shock.modifier
      else value) base_value
  rmin (rmax value 0) 1

/-- The body of the per-cohort loop of `project_year` (projection.rs lines
141-198) for one (age, gender) cohort: shocked mortality, aging (dropping
survivors at age 120), then births for fertile female cohorts. The
accumulator is (new_population, total_births, total_deaths). -/
def stepCohortDE (e : DemographicEngine) (year : Nat) (region_id : String)
    (mortality : MortalityTable) (fertility : FertilityTable) (age : Nat)
    (g : Gender) (acc : PopMap × ℚ × ℚ) : PopMap × ℚ × ℚ :=
  let count := mget e.population (age, g, region_id)
  if count < 1/1000 then acc
  else
    let base_mortality := mortality.get_rate age g
    let mortality_rate :=
      e.apply_shocks ShockType.mortality base_mortality year age g region_id
    let deaths := count * mortality_rate
    let survivors := count - deaths
    let acc : PopMap × ℚ × ℚ := (acc.1, acc.2.1, acc.2.2 + deaths)
    let acc : PopMap × ℚ × ℚ :=
      if age < 120 then (addTo acc.1 (age + 1, g, region_id) survivors, acc.2)
      else acc
    if g = Gender.female ∧ 15 ≤ age ∧ age ≤ 49 then
      let base_fertility := fertility.get_rate age
      let fertility_rate :=
        e.apply_shocks ShockType.fertility base_fertility year age g region_id
      let births := count * fertility_rate
      let male_ratio :=
        fertility.sex_ratio_at_birth / (100 + fertility.sex_ratio_at_birth)
      let male_births := births * male_ratio
      let female_births := births * (1 - male_ratio)
      let np := addTo acc.1 (0, Gender.male, region_id) male_births
      let np := addTo np (0, Gender.female, region_id) female_births
      (np, acc.2.1 + births, acc.2.2)
    else acc

/-- `DemographicEngine::project_year` (projection.rs lines 116-222): a region
with no mortality table or no fertility table is passed over with `continue`
(its cohorts are never copied into the new population). net_migration is the
literal 0 of the source. -/
def project_year (e : DemographicEngine) (year : Nat)
    (region_ids : List String) : DemographicEngine × ProjectionYear :=
  let prev_total := mtotal e.population
  let acc := region_ids.foldl
    (fun acc region_id =>
      match tlookup e.mortality_tables region_id with
      | none => acc
      | some mortality =>
        match tlookup e.fertility_tables region_id with
        | none => acc
        | some fertility =>
          CohortComponentModel.agePairs.foldl
            (fun a p => e.stepCohortDE year region_id mortality fertility p.1 p.2 a)
            acc)
    (([] : PopMap), (0 : ℚ), (0 : ℚ))
  let new_total := mtotal acc.1
  let total_births := acc.2.1
  let total_deaths := acc.2.2
  let natural_change := total_births - total_deaths
  let growth_rate :=
    if prev_total > 0 then (new_total - prev_total) / prev_total * 100 else 0
  ({ e with population := acc.1 },
    ⟨year, new_total, total_births, total_deaths, 0, natural_change,
      growth_rate⟩)

/-- `DemographicEngine::run_projection` (projection.rs lines 225-279): load
the population and tables, replace the shocks by the scenario's, then run
`project_year` for every year of base_year..=end_year with no validation.
The progress callback is an external side effect and is not modelled. -/
def run_projection (e : DemographicEngine) (scenario : Scenario)
    (initial_population : List Cohort)
    (mortality_tables : List MortalityTable)
    (fertility_tables : List FertilityTable) :
    DemographicEngine × ProjectionResult :=
  let e := e.load_population initial_population
  let e := mortality_tables.foldl (fun e t => e.load_mortality_table t) e
  let e := fertility_tables.foldl (fun e t => e.load_fertility_table t) e
  let e := { e with shocks := scenario.shocks }
  let yearList := List.range' scenario.base_year
    (scenario.end_year + 1 - scenario.base_year)
  let r := yearList.foldl
    (fun (p : DemographicEngine × List ProjectionYear) year =>
      let step := p.1.project_year year scenario.regions
      (step.1, p.2 ++ [step.2]))
    (e, [])
  (r.1, ⟨scenario.id, scenario.base_year, scenario.end_year, r.2⟩)

end DemographicEngine

/-- Population metadata (the shape constructed by engine/population.rs
`calculate_metadata`). -/
structure PopulationMetadata where
  total_population : ℚ
  median_age : ℚ
  sex_ratio : ℚ
  dependency_ratio : ℚ
deriving DecidableEq, Repr

/-- The total count of the cohorts at one age. -/
def ageCount (cohorts : List Cohort) (a : Nat) : ℚ :=
  ((cohorts.filter (fun c => decide (c.age = a))).map (fun c => c.count)).sum

/-- The distinct ages of a cohort list in ascending order: the embedding of
aggregating by age in a HashMap and sorting the entries by key
(population.rs lines 141-147). -/
def sortedAges (cohorts : List Cohort) : List Nat :=
  ((cohorts.map (fun c => c.age)).dedup).insertionSort (fun a b => a ≤ b)

/-- The scan of population.rs lines 149-157: walk the (age, count) pairs in
ascending age order, return the first age whose cumulative count reaches the
target, or 0 past the end. -/
def medianScan (target : ℚ) (counts : List (Nat × ℚ)) (cumulative : ℚ) : ℚ :=
  match counts with
  | [] => 0
  | (a, c) :: rest =>
    if cumulative + c ≥ target then (a : ℚ)
    else medianScan target rest (cumulative + c)

/-- `calculate_median_age` (population.rs lines 131-160). -/
def calculate_median_age (cohorts : List Cohort) (total_population : ℚ) : ℚ :=
  if total_population = 0 then 0
  else
    medianScan (total_population / 2)
      ((sortedAges cohorts).map (fun a => (a, ageCount cohorts a))) 0

/-- `calculate_metadata` (population.rs lines 68-128). -/
def calculate_metadata (cohorts : List Cohort) : PopulationMetadata :=
  let total_population := (cohorts.map (fun c => c.count)).sum
  if total_population = 0 then ⟨0, 0, 0, 0⟩
  else
    let male_count :=
      ((cohorts.filter (fun c => decide (c.gender = Gender.male))).map
        (fun c => c.count)).sum
    let female_count :=
      ((cohorts.filter (fun c => decide (c.gender = Gender.female))).map
        (fun c => c.count)).sum
    let sex_ratio :=
      if female_count > 0 then male_count / female_count * 100 else 0
    let median_age := calculate_median_age cohorts total_population
    let young :=
      ((cohorts.filter (fun c => decide (c.age ≤ 14))).map
        (fun c => c.count)).sum
    let old :=
      ((cohorts.filter (fun c => decide (c.age ≥ 65))).map
        (fun c => c.count)).sum
    let working :=
      ((cohorts.filter (fun c => decide (15 ≤ c.age) && decide (c.age ≤ 64))).map
        (fun c => c.count)).sum
    let dependency_ratio :=
      if working > 0 then (young + old) / working * 100 else 0
    ⟨total_population, median_age, sex_ratio, dependency_ratio⟩

/-- Input row of a projection request (handlers/projection_handler.rs). -/
structure PopulationRow where
  age : Nat
  male : ℚ
  female : ℚ
deriving DecidableEq, Repr

/-- Mortality input row (handlers/projection_handler.rs). -/
structure MortalityRow where
  age : Nat
  male : ℚ
  female : ℚ
deriving DecidableEq, Repr

/-- Fertility input row (handlers/projection_handler.rs). -/
structure FertilityRow where
  age : Nat
  rate : ℚ
deriving DecidableEq, Repr

/-- Migration input row (handlers/projection_handler.rs). -/
structure MigrationRow where
  age : Nat
  male : ℚ
  female : ℚ
deriving DecidableEq, Repr

/-- A projection request (handlers/projection_handler.rs
`ProjectionRunRequest`). -/
structure ProjectionRunRequest where
  workspace_id : String
  base_year : Nat
  end_year : Nat
  sex_ratio_at_birth : ℚ
  population : List PopulationRow
  mortality : List MortalityRow
  fertility : List FertilityRow
  migration : Option (List MigrationRow)
deriving Repr

/-- The successful response of `run_projection`
(handlers/projection_handler.rs `ProjectionRunResponse`): the source rounds
each yearly figure to i64 for the wire format; the unrounded `ProjectionYear`
values are kept here. -/
structure ProjectionRunResponse where
  workspace_id : String
  success : Bool
  years : List ProjectionYear
deriving DecidableEq, Repr

/-- `run_projection` (handlers/projection_handler.rs lines 202-380): validate
the request, build a single-region CCM model, and run one `project_one_year`
per year of base_year..=end_year. -/
def run_projection (request : ProjectionRunRequest) :
    Except String ProjectionRunResponse :=
  if request.population.isEmpty then Except.error "Population data is required"
  else if request.mortality.isEmpty then Except.error "Mortality data is required"
  else if request.fertility.isEmpty then Except.error "Fertility data is required"
  else if request.base_year ≥ request.end_year then
    Except.error "End year must be greater than base year"
  else
    let region_id := "DEFAULT"
    let cohorts := request.population.flatMap (fun row =>
      [⟨row.age, Gender.male, region_id, row.male⟩,
        ⟨row.age, Gender.female, region_id, row.female⟩])
    let ccm := CohortComponentModel.new.load_population cohorts
    let ccm := ccm.load_mortality_table
      ⟨region_id, request.base_year,
        request.mortality.map (fun r => ⟨r.age, r.male, r.female⟩)⟩
    let ccm := ccm.load_fertility_table
      ⟨region_id, request.base_year,
        request.fertility.map (fun r => ⟨r.age, r.rate⟩),
        request.sex_ratio_at_birth⟩
    let ccm := match request.migration with
      | some migration =>
        if !migration.isEmpty then
          ccm.load_migration_table
            ⟨region_id, request.base_year,
              migration.map (fun r => ⟨r.age, r.male, r.female⟩)⟩
        else ccm
      | none => ccm
    let regions := [region_id]
    let yearList := List.range' request.base_year
      (request.end_year + 1 - request.base_year)
    let r := yearList.foldl
      (fun (p : CohortComponentModel × List ProjectionYear) year =>
        let step := p.1.project_one_year year regions
        (step.1, p.2 ++ [step.2]))
      (ccm, [])
    Except.ok ⟨request.workspace_id, true, r.2⟩

/-- The per-region pre-step population total over the iteration domain. -/
def regionTotal (pop : PopMap) (region_id : String) : ℚ :=
  ((CohortComponentModel.agePairs.map
    (fun p => mget pop (p.1, p.2, region_id)))).sum

/-- The cohort keys a `project_one_year` call iterates over: every listed
region crossed with ages 0..=120 and both genders. -/
def domainKeys (regions : List String) : List CohortKey :=
  regions.flatMap
    (fun r => CohortComponentModel.agePairs.map (fun p => (p.1, p.2, r)))

/-- The conservation potential of a running `StepAcc`: the new total built so
far, minus what the tallies already account for. Every cohort processed adds
exactly its pre-step count to this quantity. -/
def Phi (acc : StepAcc) : ℚ :=
  mtotal acc.new_population - acc.births + acc.deaths - acc.migration

/-- A model with one male cohort of 100 at age 30 in region A and no rate
tables (so the mortality default of 1 applies). -/
def exSimpleModel : CohortComponentModel :=
  ⟨[((30, Gender.male, "A"), 100)], [], [], []⟩

/-- A model with one male cohort of 100 at age 30 in region A, zero mortality
at age 30, and a migration table demanding -150 net migration at age 30. -/
def exMigrationCapModel : CohortComponentModel :=
  ⟨[((30, Gender.male, "A"), 100)],
    [("A", ⟨"A", 2024, [⟨30, 0, 0⟩]⟩)], [],
    [("A", ⟨"A", 2024, [⟨30, -150, -150⟩]⟩)]⟩

/-- A CCM model with one male cohort of 100 at age 120 in region A and zero
mortality at age 120. -/
def exAge120CCM : CohortComponentModel :=
  ⟨[((120, Gender.male, "A"), 100)],
    [("A", ⟨"A", 2024, [⟨120, 0, 0⟩]⟩)], [], []⟩

/-- A DemographicEngine with the same age-120 cohort, zero mortality at age
120 and a fertility table present (so the region is processed). -/
def exAge120DE : DemographicEngine :=
  ⟨[((120, Gender.male, "A"), 100)],
    [("A", ⟨"A", 2024, [⟨120, 0, 0⟩]⟩)],
    [("A", ⟨"A", 2024, [], 105⟩)], []⟩

/-- A DemographicEngine whose stored counts are +5 and -5 (pre-step total 0)
with zero mortality at age 30, so the post-step total is positive. -/
def exGrowthDE : DemographicEngine :=
  ⟨[((30, Gender.male, "A"), 5), ((40, Gender.male, "A"), -5)],
    [("A", ⟨"A", 2024, [⟨30, 0, 0⟩]⟩)],
    [("A", ⟨"A", 2024, [], 105⟩)], []⟩

/-- A DemographicEngine with population in region A but no rate tables for A. -/
def exMissingTablesDE : DemographicEngine :=
  ⟨[((30, Gender.male, "A"), 100)], [], [], []⟩

/-- A small cohort list for evaluating the metadata computation. -/
def exMetadataCohorts : List Cohort :=
  [⟨10, Gender.female, "A", 2⟩, ⟨30, Gender.male, "A", 3⟩]

/-- A scenario whose base year equals its end year (malformed:
base_year ≥ end_year) with one region and no shocks. -/
def exScenarioEqYears : Scenario :=
  ⟨"s1", "equal years", "", 2024, 2024, ["A"], [], "", ""⟩

/-- A scenario with base year after end year, used to instantiate the
validation theorem. -/
def exScenarioBad : Scenario :=
  ⟨"s2", "bad years", "", 2030, 2020, ["A"], [], "", ""⟩

/-- A projection request whose base year equals its end year. -/
def exRequestBad : ProjectionRunRequest :=
  ⟨"ws", 2024, 2024, 105, [⟨30, 100, 100⟩], [⟨30, 0, 0⟩], [⟨30, 1/10⟩], none⟩

end Popula

namespace Popula

/-- The cumulative count over ages up to `k` — the scan quantity of
`calculate_median_age` (population.rs). -/
def cumAt (cohorts : List Cohort) (k : Nat) : ℚ :=
  ((cohorts.filter (fun c => decide (c.age ≤ k))).map (fun c => c.count)).sum

/-- The cumulative count over ages strictly below `lo`. -/
def cumBelow (cohorts : List Cohort) (lo : Nat) : ℚ :=
  ((cohorts.filter (fun c => decide (c.age < lo))).map (fun c => c.count)).sum

section MapLemmas

theorem mtotal_nil : mtotal [] = 0 := rfl

theorem mtotal_cons (e : CohortKey × ℚ) (m : PopMap) :
    mtotal (e :: m) = e.2 + mtotal m := by
  simp [mtotal]

theorem mtotal_addTo (m : PopMap) (k : CohortKey) (v : ℚ) :
    mtotal (addTo m k v) = mtotal m + v := by
  induction m with
  | nil => simp [addTo, mtotal]
  | cons e rest ih =>
    by_cases h : e.1 = k
    · simp [addTo, h, mtotal_cons]
      ring
    · simp [addTo, h, mtotal_cons, ih]
      ring

theorem mget_cons (e : CohortKey × ℚ) (m : PopMap) (k : CohortKey) :
    mget (e :: m) k = if e.1 = k then e.2 else mget m k := rfl

theorem mget_addTo_same (m : PopMap) (k : CohortKey) (v : ℚ) :
    mget (addTo m k v) k = mget m k + v := by
  induction m with
  | nil => simp [addTo, mget]
  | cons e rest ih =>
    by_cases h : e.1 = k
    · simp [addTo, h, mget]
    · simp [addTo, h, mget, ih]

theorem mget_addTo_of_ne (m : PopMap) (k k' : CohortKey) (v : ℚ)
    (h : k ≠ k') : mget (addTo m k v) k' = mget m k' := by
  induction m with
  | nil => simp [addTo, mget, h]
  | cons e rest ih =>
    by_cases he : e.1 = k
    · simp [addTo, he, mget, h]
    · simp [addTo, he, mget, ih]

theorem mget_nonneg (m : PopMap) (k : CohortKey)
    (h : ∀ e ∈ m, 0 ≤ e.2) : 0 ≤ mget m k := by
  induction m with
  | nil => simp [mget]
  | cons e rest ih =>
    rw [mget_cons]
    split
    · exact h e (List.mem_cons_self e rest)
    · exact ih (fun e' he' => h e' (List.mem_cons_of_mem e he'))

theorem addTo_forall_values (m : PopMap) (k : CohortKey) (v : ℚ)
    (P : ℚ → Prop) (hm : ∀ e ∈ m, P e.2) (hv : ∀ w, P w → P (w + v))
    (hv0 : P v) : ∀ e ∈ addTo m k v, P e.2 := by
  induction m with
  | nil => simpa [addTo] using hv0
  | cons e rest ih =>
    by_cases h : e.1 = k
    · simp only [addTo, h, if_pos rfl]
      intro e' he'
      rcases List.mem_cons.mp he' with h1 | h1
      · subst h1
        exact hv e.2 (hm e (List.mem_cons_self e rest))
      · exact hm e' (List.mem_cons_of_mem e h1)
    · simp only [addTo, h, if_neg h]
      intro e' he'
      rcases List.mem_cons.mp he' with h1 | h1
      · subst h1
        exact hm e (List.mem_cons_self e rest)
      · exact ih (fun x hx => hm x (List.mem_cons_of_mem e hx)) e' h1

theorem addTo_forall_keys (m : PopMap) (k : CohortKey) (v : ℚ)
    (P : CohortKey → Prop) (hm : ∀ e ∈ m, P e.1) (hk : P k) :
    ∀ e ∈ addTo m k v, P e.1 := by
  induction m with
  | nil => simpa [addTo] using hk
  | cons e rest ih =>
    by_cases h : e.1 = k
    · simp only [addTo, h, if_pos rfl]
      intro e' he'
      rcases List.mem_cons.mp he' with h1 | h1
      · subst h1
        simpa [h] using hk
      · exact hm e' (List.mem_cons_of_mem e h1)
    · simp only [addTo, h, if_neg h]
      intro e' he'
      rcases List.mem_cons.mp he' with h1 | h1
      · subst h1
        exact hm e (List.mem_cons_self e rest)
      · exact ih (fun x hx => hm x (List.mem_cons_of_mem e hx)) e' h1

theorem mget_eq_zero_of_not_mem (m : PopMap) (k : CohortKey)
    (h : k ∉ m.map Prod.fst) : mget m k = 0 := by
  induction m with
  | nil => rfl
  | cons e rest ih =>
    rw [mget_cons]
    rw [List.map_cons, List.mem_cons] at h
    push_neg at h
    rw [if_neg (fun he => h.1 he.symm)]
    exact ih h.2

end MapLemmas

section ClampLemmas

theorem rmin_eq_min (a b : ℚ) : rmin a b = Min.min a b := by
  rw [min_def, rmin]

theorem rmax_eq_max (a b : ℚ) : rmax a b = Max.max a b := by
  rw [max_def, rmax]

theorem clampRate_nonneg (q : ℚ) : 0 ≤ clampRate q := by
  rw [clampRate, rmin_eq_min, rmax_eq_max]
  simp [le_min_iff, le_max_iff]

theorem clampRate_le_one (q : ℚ) : clampRate q ≤ 1 := by
  rw [clampRate, rmin_eq_min]
  exact min_le_right _ _

end ClampLemmas

section MigLemmas

theorem migStep_fst (c mig : ℚ) : (migStep c mig).1 = c + (migStep c mig).2 := by
  rw [migStep]
  split
  · split
    · simp
    · simp [rmin_eq_min]
      ring
  · simp

theorem migStep_fst_nonneg (c mig : ℚ) (hc : 0 ≤ c) : 0 ≤ (migStep c mig).1 := by
  rw [migStep]
  split
  · rename_i hne
    split
    · rename_i hpos
      simp only
      linarith
    · rename_i hpos
      simp only [rmin_eq_min, sub_nonneg]
      exact min_le_right _ _
  · simpa using hc

end MigLemmas

section DomainLemmas

theorem sum_map_pick (D : List CohortKey) (k₀ : CohortKey) (f g : CohortKey → ℚ)
    (hD : D.Nodup) (hk : k₀ ∈ D) (hg : g k₀ = 0)
    (hfg : ∀ k, k ≠ k₀ → f k = g k) :
    (D.map f).sum = f k₀ + (D.map g).sum := by
  induction D with
  | nil => cases hk
  | cons d rest ih =>
    rcases List.mem_cons.mp hk with h | h
    · subst h
      have hrest : ∀ k ∈ rest, f k = g k := by
        intro k hkr
        exact hfg k (fun he => (List.nodup_cons.mp hD).1 (he ▸ hkr))
      rw [List.map_cons, List.sum_cons, List.map_cons, List.sum_cons,
        List.map_congr_left hrest, hg]
      ring
    · have hd : f d = g d := hfg d (fun he => (List.nodup_cons.mp hD).1 (he ▸ h))
      rw [List.map_cons, List.sum_cons, List.map_cons, List.sum_cons, hd,
        ih (List.nodup_cons.mp hD).2 h]
      ring

theorem mtotal_eq_sum_domain (pop : PopMap) (D : List CohortKey)
    (hkeys : (pop.map Prod.fst).Nodup) (hD : D.Nodup)
    (hdom : ∀ e ∈ pop, e.1 ∈ D) :
    (D.map (mget pop)).sum = mtotal pop := by
  induction pop with
  | nil =>
    have : ∀ k ∈ D, mget ([] : PopMap) k = 0 := by
      intro k _
      rfl
    rw [List.map_congr_left this]
    simp [mtotal]
  | cons e rest ih =>
    have hke : e.1 ∉ rest.map Prod.fst := (List.nodup_cons.mp hkeys).1
    have hstep : (D.map (mget (e :: rest))).sum
        = mget (e :: rest) e.1 + (D.map (mget rest)).sum := by
      refine sum_map_pick D e.1 _ _ hD (hdom e (List.mem_cons_self e rest))
        (mget_eq_zero_of_not_mem rest e.1 hke) ?_
      intro k hk
      rw [mget_cons, if_neg (fun he => hk he.symm)]
    rw [hstep, mget_cons, if_pos rfl, mtotal_cons,
      ih (List.nodup_cons.mp hkeys).2
        (fun x hx => hdom x (List.mem_cons_of_mem e hx))]

theorem mem_agePairs (a : Nat) (g : Gender) :
    (a, g) ∈ CohortComponentModel.agePairs ↔ a ≤ 120 := by
  constructor
  · intro h
    simp only [CohortComponentModel.agePairs, List.mem_flatMap,
      List.mem_range] at h
    rcases h with ⟨x, hx, hmem⟩
    rcases List.mem_cons.mp hmem with h1 | h1
    · cases h1
      omega
    · rcases List.mem_cons.mp h1 with h2 | h2
      · cases h2
        omega
      · cases h2
  · intro h
    simp only [CohortComponentModel.agePairs, List.mem_flatMap, List.mem_range]
    refine ⟨a, by omega, ?_⟩
    cases g
    · exact List.mem_cons_self _ _
    · exact List.mem_cons_of_mem _ (List.mem_cons_self _ _)

set_option maxRecDepth 4000 in
theorem agePairs_nodup : CohortComponentModel.agePairs.Nodup := by decide

theorem mem_domainKeys (k : CohortKey) (regions : List String) :
    k ∈ domainKeys regions ↔ k.1 ≤ 120 ∧ k.2.2 ∈ regions := by
  constructor
  · intro h
    simp only [domainKeys, List.mem_flatMap, List.mem_map] at h
    rcases h with ⟨r, hr, p, hp, hpk⟩
    subst hpk
    exact ⟨(mem_agePairs p.1 p.2).mp (by simpa using hp), hr⟩
  · rintro ⟨h1, h2⟩
    simp only [domainKeys, List.mem_flatMap, List.mem_map]
    exact ⟨k.2.2, h2, (k.1, k.2.1), (mem_agePairs k.1 k.2.1).mpr h1, rfl⟩

theorem domainKeys_nodup (regions : List String) (h : regions.Nodup) :
    (domainKeys regions).Nodup := by
  induction regions with
  | nil => simp [domainKeys]
  | cons r rest ih =>
    rw [domainKeys, List.flatMap_cons]
    refine List.Nodup.append ?_ (ih (List.nodup_cons.mp h).2) ?_
    · refine List.Nodup.map ?_ agePairs_nodup
      intro p q hpq
      simp only [Prod.mk.injEq] at hpq
      exact Prod.ext hpq.1 hpq.2.1
    · intro k hk1 hk2
      have h1 : k.2.2 = r := by
        rcases List.mem_map.mp hk1 with ⟨p, _, hpk⟩
        subst hpk
        rfl
      have h2 : k.2.2 ∈ rest := ((mem_domainKeys k rest).mp hk2).2
      exact (List.nodup_cons.mp h).1 (h1 ▸ h2)

theorem sum_mget_domainKeys (pop : PopMap) (regions : List String) :
    ((domainKeys regions).map (mget pop)).sum
      = (regions.map (regionTotal pop)).sum := by
  induction regions with
  | nil => simp [domainKeys]
  | cons r rest ih =>
    rw [domainKeys, List.flatMap_cons, List.map_append, List.sum_append,
      List.map_cons, List.sum_cons, ← domainKeys, ih, List.map_map]
    rfl

end DomainLemmas

section ConservationLemmas

theorem Phi_stepCohort (m : CohortComponentModel) (r : String) (a : Nat)
    (g : Gender) (acc : StepAcc)
    (h0 : 0 ≤ mget m.population (a, g, r)) :
    Phi (m.stepCohort r a g acc) = Phi acc + mget m.population (a, g, r) := by
  have hfst := migStep_fst (mget m.population (a, g, r))
    (m.get_migration_rate a g r)
  have hnn := migStep_fst_nonneg (mget m.population (a, g, r))
    (m.get_migration_rate a g r) h0
  have hr0 := clampRate_nonneg (m.get_mortality_rate a g r)
  have hr1 := clampRate_le_one (m.get_mortality_rate a g r)
  rw [CohortComponentModel.stepCohort]
  simp only
  split
  · rename_i h1
    simp only [Phi]
    have : (migStep (mget m.population (a, g, r))
        (m.get_migration_rate a g r)).1 = 0 := le_antisymm h1 hnn
    rw [this] at hfst
    linarith
  · rename_i h1
    push_neg at h1
    split
    · rename_i h2
      simp only [Phi, mtotal_addTo]
      linarith
    · rename_i h2
      push_neg at h2
      have hsu : 0 ≤ (migStep (mget m.population (a, g, r))
          (m.get_migration_rate a g r)).1
            - (migStep (mget m.population (a, g, r))
                (m.get_migration_rate a g r)).1
              * clampRate (m.get_mortality_rate a g r) := by
        nlinarith
      have hz : (migStep (mget m.population (a, g, r))
          (m.get_migration_rate a g r)).1
            - (migStep (mget m.population (a, g, r))
                (m.get_migration_rate a g r)).1
              * clampRate (m.get_mortality_rate a g r) = 0 :=
        le_antisymm h2 hsu
      simp only [Phi]
      linarith

theorem Phi_foldCohorts (m : CohortComponentModel) (r : String)
    (L : List (Nat × Gender)) (acc : StepAcc)
    (hpop : ∀ e ∈ m.population, 0 ≤ e.2) :
    Phi (L.foldl (fun a p => m.stepCohort r p.1 p.2 a) acc)
      = Phi acc + (L.map (fun p => mget m.population (p.1, p.2, r))).sum := by
  induction L generalizing acc with
  | nil => simp
  | cons p rest ih =>
    rw [List.foldl_cons, ih, Phi_stepCohort m r p.1 p.2 acc
      (mget_nonneg _ _ hpop), List.map_cons, List.sum_cons]
    ring

theorem calculate_births_eq (m : CohortComponentModel) (r : String) :
    m.calculate_births r = (0, 0, 0)
      ∨ (0 < (m.calculate_births r).1
          ∧ (m.calculate_births r).2.1
              = (m.calculate_births r).1
                * (m.get_sex_ratio_at_birth r
                    / (m.get_sex_ratio_at_birth r + 100))
          ∧ (m.calculate_births r).2.2
              = (m.calculate_births r).1
                * (1 - m.get_sex_ratio_at_birth r
                    / (m.get_sex_ratio_at_birth r + 100))) := by
  rw [CohortComponentModel.calculate_births]
  simp only
  split
  · exact Or.inl rfl
  · rename_i h
    push_neg at h
    exact Or.inr ⟨h, rfl, rfl⟩

theorem births_parts (m : CohortComponentModel) (r : String)
    (hsr : 0 ≤ m.get_sex_ratio_at_birth r) :
    (if (m.calculate_births r).2.1 > 0 then (m.calculate_births r).2.1 else 0)
      + (if (m.calculate_births r).2.2 > 0 then (m.calculate_births r).2.2 else 0)
      = (m.calculate_births r).1 := by
  rcases calculate_births_eq m r with h | ⟨hT, hmb, hfb⟩
  · rw [h]
    norm_num
  · have hden : (0 : ℚ) < m.get_sex_ratio_at_birth r + 100 := by linarith
    have hp0 : 0 ≤ m.get_sex_ratio_at_birth r
        / (m.get_sex_ratio_at_birth r + 100) := div_nonneg hsr (le_of_lt hden)
    have hp1 : m.get_sex_ratio_at_birth r
        / (m.get_sex_ratio_at_birth r + 100) < 1 :=
      (div_lt_one hden).mpr (by linarith)
    have hfbpos : 0 < (m.calculate_births r).2.2 := by
      rw [hfb]
      exact mul_pos hT (by linarith)
    by_cases hmbpos : (m.calculate_births r).2.1 > 0
    · rw [if_pos hmbpos, if_pos hfbpos, hmb, hfb]
      ring
    · have hmb0 : (m.calculate_births r).2.1 = 0 := by
        refine le_antisymm (not_lt.mp hmbpos) ?_
        rw [hmb]
        exact mul_nonneg (le_of_lt hT) hp0
      have : (m.calculate_births r).1
          * (m.get_sex_ratio_at_birth r
              / (m.get_sex_ratio_at_birth r + 100)) = 0 := hmb ▸ hmb0
      rw [if_neg hmbpos, if_pos hfbpos, hfb]
      have hexp : (m.calculate_births r).1
          * (1 - m.get_sex_ratio_at_birth r
              / (m.get_sex_ratio_at_birth r + 100))
            = (m.calculate_births r).1
              - (m.calculate_births r).1
                * (m.get_sex_ratio_at_birth r
                    / (m.get_sex_ratio_at_birth r + 100)) := by ring
      rw [hexp, this]
      ring

theorem Phi_stepRegion (m : CohortComponentModel) (acc : StepAcc) (r : String)
    (hpop : ∀ e ∈ m.population, 0 ≤ e.2)
    (hsr : 0 ≤ m.get_sex_ratio_at_birth r) :
    Phi (m.stepRegion acc r) = Phi acc + regionTotal m.population r := by
  rw [CohortComponentModel.stepRegion]
  simp only
  rw [Phi_foldCohorts m r _ _ hpop]
  have hb := births_parts m r hsr
  by_cases h1 : (m.calculate_births r).2.1 > 0 <;>
      by_cases h2 : (m.calculate_births r).2.2 > 0 <;>
    · simp only [h1, h2, if_true, if_false] at hb ⊢
      simp only [Phi, mtotal_addTo, regionTotal]
      linarith

theorem Phi_foldRegions (m : CohortComponentModel) (regions : List String)
    (acc : StepAcc) (hpop : ∀ e ∈ m.population, 0 ≤ e.2)
    (hsr : ∀ r ∈ regions, 0 ≤ m.get_sex_ratio_at_birth r) :
    Phi (regions.foldl m.stepRegion acc)
      = Phi acc + (regions.map (regionTotal m.population)).sum := by
  induction regions generalizing acc with
  | nil => simp
  | cons r rest ih =>
    rw [List.foldl_cons,
      ih _ (fun x hx => hsr x (List.mem_cons_of_mem r hx)),
      Phi_stepRegion m acc r hpop (hsr r (List.mem_cons_self r rest)),
      List.map_cons, List.sum_cons]
    ring

end ConservationLemmas

section FoldLemmas

theorem foldl_congr_filter {α β : Type} (f : β → α → β) (P : α → Bool)
    (L : List α) (h : ∀ p ∈ L, P p = false → ∀ b, f b p = b) (b : β) :
    L.foldl f b = (L.filter P).foldl f b := by
  induction L generalizing b with
  | nil => rfl
  | cons x rest ih =>
    cases hx : P x
    · rw [List.foldl_cons, h x (List.mem_cons_self x rest) hx b]
      simp only [List.filter_cons, hx]
      exact ih (fun p hp hpf => h p (List.mem_cons_of_mem x hp) hpf) b
    · simp only [List.filter_cons, hx, List.foldl_cons]
      exact ih (fun p hp hpf => h p (List.mem_cons_of_mem x hp) hpf) (f b x)

theorem foldl_preserve {α β : Type} (f : β → α → β) (Q : β → Prop)
    (L : List α) (hstep : ∀ b p, p ∈ L → Q b → Q (f b p)) (b : β)
    (hb : Q b) : Q (L.foldl f b) := by
  induction L generalizing b with
  | nil => exact hb
  | cons x rest ih =>
    rw [List.foldl_cons]
    exact ih (fun b' p hp => hstep b' p (List.mem_cons_of_mem x hp))
      (f b x) (hstep b x (List.mem_cons_self x rest) hb)

theorem ccm_stepCohort_skip (m : CohortComponentModel) (r : String) (a : Nat)
    (g : Gender) (acc : StepAcc) (h1 : mget m.population (a, g, r) = 0)
    (h2 : m.get_migration_rate a g r = 0) :
    m.stepCohort r a g acc = acc := by
  rw [CohortComponentModel.stepCohort]
  simp only [h1, h2, migStep]
  norm_num

theorem de_stepCohortDE_skip (e : DemographicEngine) (year : Nat) (r : String)
    (mt : MortalityTable) (ft : FertilityTable) (a : Nat) (g : Gender)
    (acc : PopMap × ℚ × ℚ) (h1 : mget e.population (a, g, r) < 1/1000) :
    e.stepCohortDE year r mt ft a g acc = acc := by
  rw [DemographicEngine.stepCohortDE]
  rw [if_pos h1]

end FoldLemmas

section NonnegLemmas

theorem stepCohort_values (m : CohortComponentModel) (r : String) (a : Nat)
    (g : Gender) (acc : StepAcc)
    (h : ∀ e ∈ acc.new_population, 0 ≤ e.2) :
    ∀ e ∈ (m.stepCohort r a g acc).new_population, 0 ≤ e.2 := by
  rw [CohortComponentModel.stepCohort]
  simp only
  split
  · exact h
  · split
    · rename_i hsu
      refine addTo_forall_values _ _ _ _ h ?_ (le_of_lt hsu)
      intro w hw
      linarith
    · exact h

theorem foldCohorts_values (m : CohortComponentModel) (r : String)
    (L : List (Nat × Gender)) (b : StepAcc)
    (hb : ∀ e ∈ b.new_population, 0 ≤ e.2) :
    ∀ e ∈ (L.foldl (fun a p => m.stepCohort r p.1 p.2 a) b).new_population,
      0 ≤ e.2 := by
  induction L generalizing b with
  | nil => exact hb
  | cons x rest ih =>
    rw [List.foldl_cons]
    exact ih _ (stepCohort_values m r x.1 x.2 b hb)

theorem stepRegion_values (m : CohortComponentModel) (acc : StepAcc)
    (r : String) (h : ∀ e ∈ acc.new_population, 0 ≤ e.2) :
    ∀ e ∈ (m.stepRegion acc r).new_population, 0 ≤ e.2 := by
  rw [CohortComponentModel.stepRegion]
  simp only
  refine foldCohorts_values m r CohortComponentModel.agePairs _ ?_
  split_ifs with h1 h2 h2
  · refine addTo_forall_values _ _ _ _ ?_ (fun w hw => by linarith)
      (le_of_lt h1)
    exact addTo_forall_values _ _ _ _ h (fun w hw => by linarith) (le_of_lt h2)
  · exact addTo_forall_values _ _ _ _ h (fun w hw => by linarith) (le_of_lt h1)
  · exact addTo_forall_values _ _ _ _ h (fun w hw => by linarith) (le_of_lt h2)
  · exact h

end NonnegLemmas

section ShockLemmas

theorem year_bool_iff (a b y : Nat) :
    ((decide (y < a) || decide (y > b)) = true) ↔ (y < a ∨ b < y) := by
  simp [gt_iff_lt]

theorem notfound_filter_iff {α : Type} [DecidableEq α] (l : List α) (x : α) :
    ((!l.isEmpty && !(l.any fun y => decide (y = x))) = true)
      ↔ ¬(l = [] ∨ x ∈ l) := by
  simp only [Bool.and_eq_true, Bool.not_eq_true', List.isEmpty_eq_false,
    List.any_eq_false, decide_eq_true_iff, not_or]
  constructor
  · rintro ⟨hne, hall⟩
    exact ⟨hne, fun hx => hall x hx rfl⟩
  · rintro ⟨hne, hnx⟩
    exact ⟨hne, fun y hy he => hnx (he ▸ hy)⟩

theorem applies_to_iff (s : Shock) (year : Nat) (r : String) (g : Gender)
    (age : Nat) :
    s.applies_to year r g age = true
      ↔ (s.start_year ≤ year ∧ year ≤ s.end_year
          ∧ (s.target_regions = [] ∨ r ∈ s.target_regions)
          ∧ (s.target_genders = [] ∨ g ∈ s.target_genders)
          ∧ (s.target_ages = none
              ∨ ∃ ag, s.target_ages = some ag ∧ ag.min ≤ age ∧ age ≤ ag.max)) := by
  rw [Shock.applies_to]
  split_ifs with h1 h2 h3
  · rw [year_bool_iff] at h1
    simp only [Bool.false_eq_true, false_iff]
    rintro ⟨hy1, hy2, -⟩
    omega
  · rw [notfound_filter_iff] at h2
    simp only [Bool.false_eq_true, false_iff]
    rintro ⟨-, -, hre, -⟩
    exact h2 hre
  · rw [notfound_filter_iff] at h3
    simp only [Bool.false_eq_true, false_iff]
    rintro ⟨-, -, -, hge, -⟩
    exact h3 hge
  · rw [year_bool_iff] at h1
    rw [notfound_filter_iff, not_not] at h2 h3
    cases hta : s.target_ages with
    | none =>
      constructor
      · intro _
        exact ⟨by omega, by omega, h2, h3, Or.inl rfl⟩
      · intro _
        rfl
    | some ag =>
      simp only [AgeGroup.contains, Bool.and_eq_true, decide_eq_true_iff]
      constructor
      · rintro ⟨hlo, hhi⟩
        exact ⟨by omega, by omega, h2, h3, Or.inr ⟨ag, rfl, hlo, hhi⟩⟩
      · rintro ⟨-, -, -, -, hag | ⟨ag', heq, hlo, hhi⟩⟩
        · cases hag
        · injection heq with heq
          subst heq
          exact ⟨hlo, hhi⟩

theorem apply_shocks_eq (e : DemographicEngine) (t : ShockType) (base : ℚ)
    (year age : Nat) (g : Gender) (r : String) :
    e.apply_shocks t base year age g r
      = Min.min (Max.max (base * ((e.shocks.filter (fun s =>
          decide (s.shock_type = t) && s.applies_to year r g age)).map
            Shock.modifier).prod) 0) 1 := by
  rw [DemographicEngine.apply_shocks, rmin_eq_min, rmax_eq_max]
  congr 2
  induction e.shocks generalizing base with
  | nil => simp
  | cons s rest ih =>
    rw [List.foldl_cons]
    by_cases h1 : s.shock_type = t
    · cases h2 : s.applies_to year r g age
      · rw [if_neg (not_not_intro h1), if_neg (by simp [h2])]
        rw [ih base, List.filter_cons]
        simp [h1, h2]
      · rw [if_neg (not_not_intro h1), if_pos (by simp [h2])]
        rw [ih (base * s.modifier), List.filter_cons]
        simp only [h1, h2, decide_eq_true_eq, if_pos, List.map_cons,
          List.prod_cons, Bool.and_self, decide_True]
        ring
    · rw [if_pos h1]
      rw [ih base, List.filter_cons]
      simp [h1]

end ShockLemmas

section SingleRegionLemmas

theorem stepRegion_no_births (m : CohortComponentModel) (acc : StepAcc)
    (r : String) (hB : m.calculate_births r = (0, 0, 0)) :
    m.stepRegion acc r
      = CohortComponentModel.agePairs.foldl
          (fun a p => m.stepCohort r p.1 p.2 a) acc := by
  rw [CohortComponentModel.stepRegion]
  simp only [hB, gt_iff_lt, lt_irrefl, if_false, add_zero]

theorem ccm_single_region (m : CohortComponentModel) (year : Nat) (r : String)
    (acc : StepAcc) (hB : m.calculate_births r = (0, 0, 0))
    (hacc : CohortComponentModel.agePairs.foldl
      (fun a p => m.stepCohort r p.1 p.2 a) ⟨[], 0, 0, 0⟩ = acc) :
    m.project_one_year year [r]
      = ({ m with population := acc.new_population },
          ⟨year, mtotal acc.new_population, acc.births, acc.deaths,
            acc.migration, acc.births - acc.deaths,
            if mtotal m.population > 0 then
              (mtotal acc.new_population - mtotal m.population)
                / mtotal m.population * 100
            else if mtotal acc.new_population > 0 then 100
            else 0⟩) := by
  rw [CohortComponentModel.project_one_year, List.foldl_cons, List.foldl_nil,
    stepRegion_no_births m _ r hB, hacc]

theorem de_single_region (e : DemographicEngine) (year : Nat) (r : String)
    (mt : MortalityTable) (ft : FertilityTable) (acc : PopMap × ℚ × ℚ)
    (hmt : tlookup e.mortality_tables r = some mt)
    (hft : tlookup e.fertility_tables r = some ft)
    (hacc : CohortComponentModel.agePairs.foldl
      (fun a p => e.stepCohortDE year r mt ft p.1 p.2 a) ([], 0, 0) = acc) :
    e.project_year year [r]
      = ({ e with population := acc.1 },
          ⟨year, mtotal acc.1, acc.2.1, acc.2.2, 0, acc.2.1 - acc.2.2,
            if mtotal e.population > 0 then
              (mtotal acc.1 - mtotal e.population) / mtotal e.population * 100
            else 0⟩) := by
  rw [DemographicEngine.project_year, List.foldl_cons, List.foldl_nil]
  simp only [hmt, hft]
  rw [hacc]

theorem ccm_growth_def (m : CohortComponentModel) (year : Nat)
    (regions : List String) :
    (m.project_one_year year regions).2.growth_rate
      = (if mtotal m.population > 0 then
          ((m.project_one_year year regions).2.total_population
            - mtotal m.population) / mtotal m.population * 100
        else if (m.project_one_year year regions).2.total_population > 0 then
          100
        else 0) := rfl

theorem de_growth_def (e : DemographicEngine) (year : Nat)
    (regions : List String) :
    (e.project_year year regions).2.growth_rate
      = (if mtotal e.population > 0 then
          ((e.project_year year regions).2.total_population
            - mtotal e.population) / mtotal e.population * 100
        else 0) := rfl

end SingleRegionLemmas

section Claims

attribute [local semireducible] Rat.add Rat.mul Rat.sub Rat.inv

set_option maxRecDepth 2000

/-- C1 (amended): for every `CohortComponentModel::project_one_year` call on a
state whose stored cohorts all have non-negative count, age at most 120 and a
region in the region list, PROVIDED the region list has no duplicate entries
and every listed region's sex ratio at birth is non-negative, the resulting
total population equals the pre-step total plus the returned births minus the
returned deaths plus the returned net_migration, exactly in exact (rational)
arithmetic. -/
theorem ccm_conservation_exact (m : CohortComponentModel) (year : Nat)
    (regions : List String)
    (hkeys : (m.population.map Prod.fst).Nodup)
    (hpop : ∀ e ∈ m.population, 0 ≤ e.2 ∧ e.1.1 ≤ 120 ∧ e.1.2.2 ∈ regions)
    (hreg : regions.Nodup)
    (hsr : ∀ r ∈ regions, 0 ≤ m.get_sex_ratio_at_birth r) :
    (m.project_one_year year regions).2.total_population
      = mtotal m.population
        + (m.project_one_year year regions).2.births
        - (m.project_one_year year regions).2.deaths
        + (m.project_one_year year regions).2.net_migration := by
  have hpop' : ∀ e ∈ m.population, 0 ≤ e.2 := fun e he => (hpop e he).1
  have hphi := Phi_foldRegions m regions ⟨[], 0, 0, 0⟩ hpop' hsr
  have hdom : ∀ e ∈ m.population, e.1 ∈ domainKeys regions := by
    intro e he
    exact (mem_domainKeys e.1 regions).mpr ⟨(hpop e he).2.1, (hpop e he).2.2⟩
  have hsum := mtotal_eq_sum_domain m.population (domainKeys regions) hkeys
    (domainKeys_nodup regions hreg) hdom
  rw [sum_mget_domainKeys] at hsum
  rw [CohortComponentModel.project_one_year]
  simp only [Phi] at hphi
  simp only [mtotal, List.map_nil, List.sum_nil] at hphi hsum ⊢
  linarith

/-- C1 counterexample: the claim as stated (without the no-duplicate-region
condition) fails: with region list [A, A] the single region A is processed
twice, so the sole cohort's deaths are double-counted and the balance is off
by the pre-step total. All the hypotheses the claim states hold at this
input. -/
theorem ccm_conservation_cex :
    (∀ e ∈ exSimpleModel.population,
        0 ≤ e.2 ∧ e.1.1 ≤ 120 ∧ e.1.2.2 ∈ ["A", "A"])
      ∧ (exSimpleModel.project_one_year 2024 ["A", "A"]).2.total_population
          ≠ mtotal exSimpleModel.population
            + (exSimpleModel.project_one_year 2024 ["A", "A"]).2.births
            - (exSimpleModel.project_one_year 2024 ["A", "A"]).2.deaths
            + (exSimpleModel.project_one_year 2024 ["A", "A"]).2.net_migration := by
  refine ⟨by decide, ?_⟩
  have hphi := Phi_foldRegions exSimpleModel ["A", "A"] ⟨[], 0, 0, 0⟩
    (by decide) (by decide)
  have hsum := mtotal_eq_sum_domain exSimpleModel.population (domainKeys ["A"])
    (by decide) (domainKeys_nodup ["A"] (by decide)) (by decide)
  rw [sum_mget_domainKeys] at hsum
  have htot : mtotal exSimpleModel.population = 100 := by decide
  rw [htot] at hsum
  simp only [List.map_cons, List.map_nil, List.sum_cons, List.sum_nil] at hphi hsum
  rw [CohortComponentModel.project_one_year]
  simp only [Phi, mtotal, List.map_nil, List.sum_nil] at hphi
  simp only [mtotal, List.map_nil, List.sum_nil, htot]
  intro heq
  simp only [mtotal] at htot
  linarith

/-- C1 witness: the amended conservation theorem applied at a concrete model
and a duplicate-free region list. -/
theorem ccm_conservation_witness :
    (exSimpleModel.project_one_year 2024 ["A"]).2.total_population
      = mtotal exSimpleModel.population
        + (exSimpleModel.project_one_year 2024 ["A"]).2.births
        - (exSimpleModel.project_one_year 2024 ["A"]).2.deaths
        + (exSimpleModel.project_one_year 2024 ["A"]).2.net_migration :=
  ccm_conservation_exact exSimpleModel 2024 ["A"] (by decide) (by decide)
    (by decide) (by decide)

/-- C2: for every state whose stored counts are all non-negative, after one
`CohortComponentModel::project_one_year` step every stored count is still
non-negative, and `get_count` is non-negative at every (age, gender, region):
the applied mortality rate is clamped to [0, 1] and emigration is capped at
the available count, so no negative count is ever stored. -/
theorem ccm_counts_nonneg (m : CohortComponentModel) (year : Nat)
    (regions : List String) (hpop : ∀ e ∈ m.population, 0 ≤ e.2) :
    (∀ e ∈ (m.project_one_year year regions).1.population, 0 ≤ e.2)
      ∧ ∀ (a : Nat) (g : Gender) (r : String),
          0 ≤ (m.project_one_year year regions).1.get_count a g r := by
  have hall : ∀ e ∈ (regions.foldl m.stepRegion ⟨[], 0, 0, 0⟩).new_population,
      0 ≤ e.2 := by
    refine foldl_preserve m.stepRegion
      (fun acc => ∀ e ∈ acc.new_population, 0 ≤ e.2) regions
      (fun b r _ hq => stepRegion_values m b r hq) _ ?_
    intro e he
    cases he
  constructor
  · intro e he
    refine hall e ?_
    rw [CohortComponentModel.project_one_year] at he
    exact he
  · intro a g r
    rw [CohortComponentModel.project_one_year, CohortComponentModel.get_count]
    exact mget_nonneg _ _ hall

/-- C2 witness: the non-negativity theorem applied to the migration-cap model,
whose migration table demands more emigrants than the cohort holds. -/
theorem ccm_counts_nonneg_witness :
    0 ≤ (exMigrationCapModel.project_one_year 2024 ["A"]).1.get_count 31
      Gender.male "A" :=
  (ccm_counts_nonneg exMigrationCapModel 2024 ["A"] (by decide)).2 31
    Gender.male "A"

end Claims

end Popula

namespace Popula
section Claims
attribute [local semireducible] Rat.add Rat.mul Rat.sub Rat.inv
set_option maxRecDepth 2000

theorem de_stepCohortDE_skip2 (e : DemographicEngine) (year : Nat) (r : String)
    (mt : MortalityTable) (ft : FertilityTable) (a : Nat) (g : Gender)
    (acc : PopMap × ℚ × ℚ) (h1 : mget e.population (a, g, r) < 1/1000) :
    e.stepCohortDE year r mt ft a g acc = acc := by
  rw [DemographicEngine.stepCohortDE]
  rw [if_pos h1]

theorem exMig_births : exMigrationCapModel.calculate_births "A" = (0, 0, 0) := by
  decide

theorem exMig_skip : ∀ p ∈ CohortComponentModel.agePairs,
    (fun p => decide (p.1 = 30)) p = false →
      mget exMigrationCapModel.population (p.1, p.2, "A") = 0
        ∧ exMigrationCapModel.get_migration_rate p.1 p.2 "A" = 0 := by
  decide

theorem exMig_filter : CohortComponentModel.agePairs.filter
    (fun p => decide (p.1 = 30)) = [(30, Gender.male), (30, Gender.female)] := by
  decide

theorem exMig_acc : CohortComponentModel.agePairs.foldl
    (fun a p => exMigrationCapModel.stepCohort "A" p.1 p.2 a) ⟨[], 0, 0, 0⟩
      = ⟨[], 0, 0, -100⟩ := by
  rw [foldl_congr_filter _ (fun p => decide (p.1 = 30)) _
    (fun p hp hpf b => ccm_stepCohort_skip _ _ _ _ b (exMig_skip p hp hpf).1
      (exMig_skip p hp hpf).2), exMig_filter]
  decide

theorem exMig_step : exMigrationCapModel.project_one_year 2024 ["A"]
    = ({ exMigrationCapModel with population := [] },
        ⟨2024, 0, 0, 0, -100, 0, -100⟩) := by
  rw [ccm_single_region exMigrationCapModel 2024 "A" ⟨[], 0, 0, -100⟩
    exMig_births exMig_acc]
  norm_num [mtotal, exMigrationCapModel]

end Claims
end Popula

namespace Popula
section Claims2
attribute [local semireducible] Rat.add Rat.mul Rat.sub Rat.inv
set_option maxRecDepth 2000

-- C3 pieces: CCM
theorem exA120_births : exAge120CCM.calculate_births "A" = (0, 0, 0) := by
  decide

theorem exA120_skip : ∀ p ∈ CohortComponentModel.agePairs,
    (fun p => decide (p = (120, Gender.male))) p = false →
      mget exAge120CCM.population (p.1, p.2, "A") = 0
        ∧ exAge120CCM.get_migration_rate p.1 p.2 "A" = 0 := by
  decide

theorem exA120_filter : CohortComponentModel.agePairs.filter
    (fun p => decide (p = (120, Gender.male))) = [(120, Gender.male)] := by
  decide

theorem exA120_acc : CohortComponentModel.agePairs.foldl
    (fun a p => exAge120CCM.stepCohort "A" p.1 p.2 a) ⟨[], 0, 0, 0⟩
      = ⟨[((120, Gender.male, "A"), 100)], 0, 0, 0⟩ := by
  rw [foldl_congr_filter _ (fun p => decide (p = (120, Gender.male))) _
    (fun p hp hpf b => ccm_stepCohort_skip _ _ _ _ b (exA120_skip p hp hpf).1
      (exA120_skip p hp hpf).2), exA120_filter]
  decide

theorem exA120_step : exAge120CCM.project_one_year 2024 ["A"]
    = ({ exAge120CCM with population := [((120, Gender.male, "A"), 100)] },
        ⟨2024, 100, 0, 0, 0, 0, 0⟩) := by
  rw [ccm_single_region exAge120CCM 2024 "A"
    ⟨[((120, Gender.male, "A"), 100)], 0, 0, 0⟩ exA120_births exA120_acc]
  norm_num [mtotal, exAge120CCM]

-- C3 pieces: DE
theorem exA120DE_skip : ∀ p ∈ CohortComponentModel.agePairs,
    (fun p => decide (p = (120, Gender.male))) p = false →
      mget exAge120DE.population (p.1, p.2, "A") < 1/1000 := by
  decide

theorem exA120DE_acc : CohortComponentModel.agePairs.foldl
    (fun a p => exAge120DE.stepCohortDE 2024 "A" ⟨"A", 2024, [⟨120, 0, 0⟩]⟩
      ⟨"A", 2024, [], 105⟩ p.1 p.2 a) ([], 0, 0) = ([], 0, 0) := by
  rw [foldl_congr_filter _ (fun p => decide (p = (120, Gender.male))) _
    (fun p hp hpf b => de_stepCohortDE_skip2 _ _ _ _ _ _ _ b
      (exA120DE_skip p hp hpf)), exA120_filter]
  decide

theorem exA120DE_step : exAge120DE.project_year 2024 ["A"]
    = ({ exAge120DE with population := [] },
        ⟨2024, 0, 0, 0, 0, 0, -100⟩) := by
  rw [de_single_region exAge120DE 2024 "A" ⟨"A", 2024, [⟨120, 0, 0⟩]⟩
    ⟨"A", 2024, [], 105⟩ ([], 0, 0) (by decide) (by decide) exA120DE_acc]
  norm_num [mtotal, exAge120DE]

-- C6 pieces: DE growth
theorem exGrowth_skip : ∀ p ∈ CohortComponentModel.agePairs,
    (fun p => decide (p = (30, Gender.male))) p = false →
      mget exGrowthDE.population (p.1, p.2, "A") < 1/1000 := by
  decide

theorem exGrowth_filter : CohortComponentModel.agePairs.filter
    (fun p => decide (p = (30, Gender.male))) = [(30, Gender.male)] := by
  decide

theorem exGrowth_acc : CohortComponentModel.agePairs.foldl
    (fun a p => exGrowthDE.stepCohortDE 2024 "A" ⟨"A", 2024, [⟨30, 0, 0⟩]⟩
      ⟨"A", 2024, [], 105⟩ p.1 p.2 a) ([], 0, 0)
      = ([((31, Gender.male, "A"), 5)], 0, 0) := by
  rw [foldl_congr_filter _ (fun p => decide (p = (30, Gender.male))) _
    (fun p hp hpf b => de_stepCohortDE_skip2 _ _ _ _ _ _ _ b
      (exGrowth_skip p hp hpf)), exGrowth_filter]
  decide

theorem exGrowth_step : exGrowthDE.project_year 2024 ["A"]
    = ({ exGrowthDE with population := [((31, Gender.male, "A"), 5)] },
        ⟨2024, 5, 0, 0, 0, 0, 0⟩) := by
  rw [de_single_region exGrowthDE 2024 "A" ⟨"A", 2024, [⟨30, 0, 0⟩]⟩
    ⟨"A", 2024, [], 105⟩ ([((31, Gender.male, "A"), 5)], 0, 0)
    (by decide) (by decide) exGrowth_acc]
  norm_num [mtotal, exGrowthDE]

-- C7 evaluation: skipped region is erased
theorem exMissing_step :
    (exMissingTablesDE.project_year 2024 ["A"]).1.get_cohort_count 30
        Gender.male "A" = 0
      ∧ (exMissingTablesDE.project_year 2024 ["A"]).2.births = 0
      ∧ (exMissingTablesDE.project_year 2024 ["A"]).2.deaths = 0
      ∧ (exMissingTablesDE.project_year 2024 ["A"]).2.total_population = 0 := by
  decide

end Claims2
end Popula


namespace Popula
section C8sec
attribute [local semireducible] Rat.add Rat.mul Rat.sub Rat.inv
set_option maxRecDepth 2000

theorem ite_append_ne_nil {c : Prop} [Decidable c] (errs : List String)
    (msg : String) (h : errs ≠ []) :
    (if c then errs ++ [msg] else errs) ≠ [] := by
  split
  · simp
  · exact h

theorem ite_append_ne_nil_of_pos {c : Prop} [Decidable c] (hc : c)
    (errs : List String) (msg : String) :
    (if c then errs ++ [msg] else errs) ≠ [] := by
  rw [if_pos hc]
  simp

theorem validate_not_valid_of_base_ge (s : Scenario)
    (h : s.base_year ≥ s.end_year) : (s.validate).valid = false := by
  rw [Scenario.validate]
  simp only [List.isEmpty_eq_false]
  refine foldl_preserve _ (fun l => l ≠ []) _
    (fun b sh _ hb => ite_append_ne_nil _ _ (ite_append_ne_nil _ _ hb)) _ ?_
  refine ite_append_ne_nil _ _ ?_
  refine ite_append_ne_nil _ _ ?_
  refine ite_append_ne_nil _ _ ?_
  exact ite_append_ne_nil_of_pos h _ _

theorem validate_not_valid_of_no_regions (s : Scenario)
    (h : s.regions = []) : (s.validate).valid = false := by
  rw [Scenario.validate]
  simp only [List.isEmpty_eq_false]
  refine foldl_preserve _ (fun l => l ≠ []) _
    (fun b sh _ hb => ite_append_ne_nil _ _ (ite_append_ne_nil _ _ hb)) _ ?_
  exact ite_append_ne_nil_of_pos (by simp [h]) _ _

theorem shocks_fold_ne_nil (s : Scenario) (L : List Shock)
    (errs : List String)
    (h : ∃ sh ∈ L, sh.start_year < s.base_year ∨ s.end_year < sh.end_year) :
    (L.foldl (fun errs shock =>
      let errs := if shock.start_year < s.base_year then
          errs ++ ["Shock " ++ shock.name ++ " starts before scenario base year"]
        else errs
      if shock.end_year > s.end_year then
        errs ++ ["Shock " ++ shock.name ++ " ends after scenario end year"]
      else errs) errs) ≠ [] := by
  induction L generalizing errs with
  | nil =>
    rcases h with ⟨sh, hmem, -⟩
    cases hmem
  | cons x rest ih =>
    rw [List.foldl_cons]
    rcases h with ⟨sh, hmem, hviol⟩
    rcases List.mem_cons.mp hmem with he | hm
    · subst he
      refine foldl_preserve _ (fun l => l ≠ []) _
        (fun b sh' _ hb => ite_append_ne_nil _ _ (ite_append_ne_nil _ _ hb))
        _ ?_
      rcases hviol with hv | hv
      · exact ite_append_ne_nil _ _ (ite_append_ne_nil_of_pos hv _ _)
      · exact ite_append_ne_nil_of_pos hv _ _
    · exact ih _ ⟨sh, hm, hviol⟩

theorem validate_not_valid_of_shock_outside (s : Scenario)
    (h : ∃ sh ∈ s.shocks,
      sh.start_year < s.base_year ∨ s.end_year < sh.end_year) :
    (s.validate).valid = false := by
  rw [Scenario.validate]
  simp only [List.isEmpty_eq_false]
  exact shocks_fold_ne_nil s s.shocks _ h

theorem run_projection_rejects (req : ProjectionRunRequest)
    (h : req.base_year ≥ req.end_year) :
    ∃ msg, run_projection req = Except.error msg := by
  rw [run_projection]
  split_ifs with h1 h2 h3 h4
  all_goals exact ⟨_, rfl⟩

end C8sec
end Popula


namespace Popula

section C9sec

theorem sum_filter_mono (l : List Cohort) (p q : Cohort → Bool)
    (hpq : ∀ c ∈ l, p c = true → q c = true) (hnn : ∀ c ∈ l, 0 ≤ c.count) :
    ((l.filter p).map (fun c => c.count)).sum
      ≤ ((l.filter q).map (fun c => c.count)).sum := by
  induction l with
  | nil => simp
  | cons c rest ih =>
    have ih' := ih (fun x hx => hpq x (List.mem_cons_of_mem _ hx))
      (fun x hx => hnn x (List.mem_cons_of_mem _ hx))
    have hc0 := hnn c (List.mem_cons_self _ _)
    by_cases hp : p c = true
    · have hq := hpq c (List.mem_cons_self _ _) hp
      simp only [List.filter_cons, hp, hq, if_true, List.map_cons,
        List.sum_cons]
      linarith
    · rw [List.filter_cons, if_neg (by simpa using hp)]
      cases hqc : q c
      · rw [List.filter_cons, if_neg (by simp [hqc])]
        exact ih'
      · rw [List.filter_cons, if_pos (by simp [hqc]), List.map_cons,
          List.sum_cons]
        linarith

theorem sum_filter_split (l : List Cohort) (pr p q : Cohort → Bool)
    (h : ∀ c ∈ l, (pr c = true ↔ (p c = true ∨ q c = true))
        ∧ ¬(p c = true ∧ q c = true)) :
    ((l.filter pr).map (fun c => c.count)).sum
      = ((l.filter p).map (fun c => c.count)).sum
        + ((l.filter q).map (fun c => c.count)).sum := by
  induction l with
  | nil => simp
  | cons c rest ih =>
    have ih' := ih (fun x hx => h x (List.mem_cons_of_mem _ hx))
    have hc := h c (List.mem_cons_self _ _)
    by_cases hp : p c = true
    · have hq : q c = false := by
        cases hq : q c
        · rfl
        · exact absurd ⟨hp, hq⟩ hc.2
      have hpr : pr c = true := hc.1.mpr (Or.inl hp)
      simp only [List.filter_cons, hp, hq, hpr, if_true, if_false,
        Bool.false_eq_true, List.map_cons, List.sum_cons]
      rw [ih']
      ring
    · by_cases hq : q c = true
      · have hpr : pr c = true := hc.1.mpr (Or.inr hq)
        rw [List.filter_cons, if_pos (by simp [hpr]),
          List.filter_cons, if_neg (by simpa using hp),
          List.filter_cons, if_pos (by simp [hq])]
        simp only [List.map_cons, List.sum_cons]
        rw [ih']
        ring
      · have hpr : pr c = false := by
          cases hpr : pr c
          · rfl
          · rcases hc.1.mp hpr with h1 | h1
            · exact absurd h1 hp
            · exact absurd h1 hq
        rw [List.filter_cons, if_neg (by simp [hpr]),
          List.filter_cons, if_neg (by simpa using hp),
          List.filter_cons, if_neg (by simpa using hq)]
        exact ih'

theorem cumAt_head (cohorts : List Cohort) (lo a : Nat) (rest : List Nat)
    (hlo_a : lo ≤ a)
    (hcover : ∀ c ∈ cohorts, c.age < lo ∨ c.age ∈ (a :: rest))
    (hrest : ∀ x ∈ rest, a < x) :
    cumAt cohorts a = cumBelow cohorts lo + ageCount cohorts a := by
  rw [cumAt, cumBelow, ageCount]
  refine sum_filter_split cohorts _ _ _ ?_
  intro c hc
  simp only [decide_eq_true_iff]
  have hcov := hcover c hc
  constructor
  · constructor
    · intro hle
      rcases hcov with h1 | h1
      · exact Or.inl h1
      · rcases List.mem_cons.mp h1 with h2 | h2
        · exact Or.inr h2
        · exact absurd (hrest _ h2) (by omega)
    · rintro (h1 | h1) <;> omega
  · rintro ⟨h1, h2⟩
    omega

theorem cumAt_le_below (cohorts : List Cohort) (lo k : Nat) (L : List Nat)
    (hcover : ∀ c ∈ cohorts, c.age < lo ∨ c.age ∈ L)
    (hL : ∀ x ∈ L, k < x)
    (hnn : ∀ c ∈ cohorts, 0 ≤ c.count) :
    cumAt cohorts k ≤ cumBelow cohorts lo := by
  refine sum_filter_mono cohorts _ _ ?_ hnn
  intro c hc h
  simp only [decide_eq_true_iff] at h ⊢
  rcases hcover c hc with h1 | h1
  · exact h1
  · exact absurd (hL _ h1) (by omega)

theorem cumBelow_eq_total (cohorts : List Cohort) (lo : Nat)
    (hcover : ∀ c ∈ cohorts, c.age < lo) :
    cumBelow cohorts lo = (cohorts.map (fun c => c.count)).sum := by
  rw [cumBelow, List.filter_eq_self.mpr
    (fun c hc => by simpa using hcover c hc)]

theorem cumBelow_succ (cohorts : List Cohort) (a : Nat) :
    cumBelow cohorts (a + 1) = cumAt cohorts a := by
  rw [cumBelow, cumAt]
  congr 2
  apply List.filter_congr
  intro c _
  simp [Nat.lt_succ_iff]

end C9sec

end Popula

namespace Popula
section C9main

theorem medianScan_correct (cohorts : List Cohort)
    (hnn : ∀ c ∈ cohorts, 0 ≤ c.count) (target : ℚ)
    (htt : target ≤ (cohorts.map (fun c => c.count)).sum)
    (L : List Nat) (lo : Nat) (cum : ℚ)
    (hsort : L.Sorted (· ≤ ·)) (hnodup : L.Nodup)
    (hlo : ∀ x ∈ L, lo ≤ x)
    (hcover : ∀ c ∈ cohorts, c.age < lo ∨ c.age ∈ L)
    (hcum : cum = cumBelow cohorts lo) (hcumlt : cum < target) :
    ∃ M : Nat,
      medianScan target (L.map (fun a => (a, ageCount cohorts a))) cum = (M : ℚ)
        ∧ target ≤ cumAt cohorts M ∧ ∀ k < M, cumAt cohorts k < target := by
  induction L generalizing lo cum with
  | nil =>
    exfalso
    have : cum = (cohorts.map (fun c => c.count)).sum := by
      rw [hcum]
      exact cumBelow_eq_total cohorts lo
        (fun c hc => (hcover c hc).resolve_right (by simp))
    rw [this] at hcumlt
    linarith
  | cons a rest ih =>
    have hrest_gt : ∀ x ∈ rest, a < x := by
      intro x hx
      have h1 : a ≤ x := (List.sorted_cons.mp hsort).1 x hx
      have h2 : a ≠ x := fun he => (List.nodup_cons.mp hnodup).1 (he ▸ hx)
      omega
    have hheadA : cumAt cohorts a = cumBelow cohorts lo + ageCount cohorts a :=
      cumAt_head cohorts lo a rest (hlo a (List.mem_cons_self a rest))
        hcover hrest_gt
    rw [List.map_cons, medianScan]
    by_cases hreach : cum + ageCount cohorts a ≥ target
    · rw [if_pos hreach]
      refine ⟨a, rfl, ?_, ?_⟩
      · rw [hheadA, ← hcum]
        exact hreach
      · intro k hk
        have hle : cumAt cohorts k ≤ cumBelow cohorts lo :=
          cumAt_le_below cohorts lo k (a :: rest) hcover
            (fun x hx => by
              rcases List.mem_cons.mp hx with h1 | h1
              · omega
              · have := hrest_gt x h1
                omega)
            hnn
        rw [← hcum] at hle
        linarith
    · rw [if_neg hreach]
      push_neg at hreach
      refine ih (a + 1) (cum + ageCount cohorts a)
        (List.sorted_cons.mp hsort).2 (List.nodup_cons.mp hnodup).2
        (fun x hx => hrest_gt x hx) ?_ ?_ hreach
      · intro c hc
        rcases hcover c hc with h1 | h1
        · left
          have := hlo a (List.mem_cons_self a rest)
          omega
        · rcases List.mem_cons.mp h1 with h2 | h2
          · left
            omega
          · right
            exact h2
      · rw [cumBelow_succ, hheadA, hcum]

end C9main
end Popula

namespace Popula
section C9final

theorem sortedAges_sorted (cohorts : List Cohort) :
    (sortedAges cohorts).Sorted (· ≤ ·) :=
  List.sorted_insertionSort _ _

theorem sortedAges_nodup (cohorts : List Cohort) :
    (sortedAges cohorts).Nodup :=
  ((List.perm_insertionSort _ _).nodup_iff).mpr
    (List.nodup_dedup _)

theorem mem_sortedAges (cohorts : List Cohort) (x : Nat) :
    x ∈ sortedAges cohorts ↔ ∃ c ∈ cohorts, c.age = x := by
  rw [sortedAges, (List.perm_insertionSort _ _).mem_iff, List.mem_dedup,
    List.mem_map]

theorem calculate_median_age_spec (cohorts : List Cohort)
    (hnn : ∀ c ∈ cohorts, 0 ≤ c.count)
    (htot : (cohorts.map (fun c => c.count)).sum ≠ 0) :
    ∃ M : Nat,
      calculate_median_age cohorts ((cohorts.map (fun c => c.count)).sum)
          = (M : ℚ)
        ∧ (cohorts.map (fun c => c.count)).sum / 2 ≤ cumAt cohorts M
        ∧ ∀ k < M, cumAt cohorts k
            < (cohorts.map (fun c => c.count)).sum / 2 := by
  have hge : 0 ≤ (cohorts.map (fun c => c.count)).sum := by
    refine List.sum_nonneg ?_
    intro x hx
    rcases List.mem_map.mp hx with ⟨c, hc, he⟩
    exact he ▸ hnn c hc
  have hpos : 0 < (cohorts.map (fun c => c.count)).sum :=
    lt_of_le_of_ne hge (Ne.symm htot)
  rw [calculate_median_age, if_neg htot]
  refine medianScan_correct cohorts hnn _ (by linarith)
    (sortedAges cohorts) 0 0 (sortedAges_sorted cohorts)
    (sortedAges_nodup cohorts) (fun x _ => Nat.zero_le x)
    (fun c hc => Or.inr ((mem_sortedAges _ _).mpr ⟨c, hc, rfl⟩)) ?_
    (by linarith)
  rw [cumBelow, List.filter_eq_nil_iff.mpr (by intro c _; simp)]
  rfl

end C9final
end Popula

namespace Popula
section C9claim

/-- C9: `calculate_metadata` is a pure function of the cohort list. For
non-negative counts: the total is the sum of all counts; every metadata
field is 0 when that total is 0; otherwise the sex ratio is male total /
female total × 100 (0 when the female total is 0), the dependency ratio is
(ages 0-14 plus ages 65+) / ages 15-64 × 100 (0 when the working-age total
is 0), and the median age is the smallest age at which the cumulative count
reaches at least total / 2. -/
theorem calculate_metadata_spec (cohorts : List Cohort)
    (hnn : ∀ c ∈ cohorts, 0 ≤ c.count) :
    (calculate_metadata cohorts).total_population
        = (cohorts.map (fun c => c.count)).sum
      ∧ ((cohorts.map (fun c => c.count)).sum = 0 →
          calculate_metadata cohorts = ⟨0, 0, 0, 0⟩)
      ∧ ((cohorts.map (fun c => c.count)).sum ≠ 0 →
          ((calculate_metadata cohorts).sex_ratio
            = (if ((cohorts.filter (fun c =>
                  decide (c.gender = Gender.female))).map
                    (fun c => c.count)).sum = 0 then 0
              else ((cohorts.filter (fun c =>
                  decide (c.gender = Gender.male))).map
                    (fun c => c.count)).sum
                / ((cohorts.filter (fun c =>
                    decide (c.gender = Gender.female))).map
                      (fun c => c.count)).sum * 100))
          ∧ ((calculate_metadata cohorts).dependency_ratio
            = (if ((cohorts.filter (fun c =>
                  decide (15 ≤ c.age) && decide (c.age ≤ 64))).map
                    (fun c => c.count)).sum = 0 then 0
              else (((cohorts.filter (fun c => decide (c.age ≤ 14))).map
                      (fun c => c.count)).sum
                  + ((cohorts.filter (fun c => decide (c.age ≥ 65))).map
                      (fun c => c.count)).sum)
                / ((cohorts.filter (fun c =>
                    decide (15 ≤ c.age) && decide (c.age ≤ 64))).map
                      (fun c => c.count)).sum * 100))
          ∧ ∃ M : Nat, (calculate_metadata cohorts).median_age = (M : ℚ)
              ∧ (cohorts.map (fun c => c.count)).sum / 2 ≤ cumAt cohorts M
              ∧ ∀ k < M, cumAt cohorts k
                  < (cohorts.map (fun c => c.count)).sum / 2) := by
  have hfilter_nonneg : ∀ p : Cohort → Bool,
      0 ≤ ((cohorts.filter p).map (fun c => c.count)).sum := by
    intro p
    refine List.sum_nonneg ?_
    intro x hx
    rcases List.mem_map.mp hx with ⟨c, hc, he⟩
    exact he ▸ hnn c (List.mem_of_mem_filter hc)
  by_cases htot : (cohorts.map (fun c => c.count)).sum = 0
  · rw [calculate_metadata, if_pos htot]
    exact ⟨htot.symm, fun _ => rfl, fun hne => absurd htot hne⟩
  · rw [calculate_metadata, if_neg htot]
    refine ⟨rfl, fun h => absurd h htot, fun _ => ⟨?_, ?_, ?_⟩⟩
    · by_cases hf : ((cohorts.filter (fun c =>
          decide (c.gender = Gender.female))).map (fun c => c.count)).sum = 0
      · rw [if_pos hf]
        simp only
        rw [if_neg (by rw [hf]; exact lt_irrefl 0)]
      · rw [if_neg hf]
        simp only
        rw [if_pos (lt_of_le_of_ne (hfilter_nonneg _) (Ne.symm hf))]
    · by_cases hw : ((cohorts.filter (fun c =>
          decide (15 ≤ c.age) && decide (c.age ≤ 64))).map
            (fun c => c.count)).sum = 0
      · rw [if_pos hw]
        simp only
        rw [if_neg (by rw [hw]; exact lt_irrefl 0)]
      · rw [if_neg hw]
        simp only
        rw [if_pos (lt_of_le_of_ne (hfilter_nonneg _) (Ne.symm hw))]
    · simpa using calculate_median_age_spec cohorts hnn htot

end C9claim
end Popula


namespace Popula
section C10sec

theorem foldl_congr_fun {α β : Type} (f g : β → α → β) (L : List α) (b : β)
    (h : ∀ b' x, x ∈ L → f b' x = g b' x) :
    L.foldl f b = L.foldl g b := by
  induction L generalizing b with
  | nil => rfl
  | cons x rest ih =>
    rw [List.foldl_cons, List.foldl_cons, h b x (List.mem_cons_self x rest)]
    exact ih _ (fun b' y hy => h b' y (List.mem_cons_of_mem x hy))

theorem mget_filter (pop : PopMap) (P : CohortKey → Bool) (k : CohortKey)
    (hk : P k = true) :
    mget (pop.filter (fun e => P e.1)) k = mget pop k := by
  induction pop with
  | nil => rfl
  | cons e rest ih =>
    by_cases he : e.1 = k
    · rw [List.filter_cons, if_pos (by simp [he, hk]), mget_cons,
        mget_cons, if_pos he, if_pos he]
    · cases hp : P e.1
      · rw [List.filter_cons, if_neg (by simp [hp]), ih, mget_cons,
          if_neg he]
      · rw [List.filter_cons, if_pos (by simp [hp]), mget_cons, if_neg he,
        mget_cons, if_neg he, ih]

-- congruence of one cohort step in the population argument
theorem stepCohort_congr (m : CohortComponentModel) (pop' : PopMap)
    (r : String) (a : Nat) (g : Gender) (acc : StepAcc)
    (h : mget pop' (a, g, r) = mget m.population (a, g, r)) :
    CohortComponentModel.stepCohort { m with population := pop' } r a g acc
      = m.stepCohort r a g acc := by
  rw [CohortComponentModel.stepCohort, CohortComponentModel.stepCohort]
  simp only [CohortComponentModel.get_migration_rate,
    CohortComponentModel.get_mortality_rate, h]

theorem calculate_births_congr (m : CohortComponentModel) (pop' : PopMap)
    (r : String)
    (h : ∀ a ∈ CohortComponentModel.fertileAges,
      mget pop' (a, Gender.female, r) = mget m.population (a, Gender.female, r)) :
    CohortComponentModel.calculate_births { m with population := pop' } r
      = m.calculate_births r := by
  rw [CohortComponentModel.calculate_births,
    CohortComponentModel.calculate_births]
  simp only [CohortComponentModel.get_fertility_rate,
    CohortComponentModel.get_sex_ratio_at_birth]
  rw [foldl_congr_fun _ _ _ _ (fun b a ha => by rw [h a ha])]

theorem stepRegion_congr (m : CohortComponentModel) (pop' : PopMap)
    (r : String) (acc : StepAcc)
    (h : ∀ (a : Nat) (g : Gender), a ≤ 120 →
      mget pop' (a, g, r) = mget m.population (a, g, r)) :
    CohortComponentModel.stepRegion { m with population := pop' } acc r
      = m.stepRegion acc r := by
  rw [CohortComponentModel.stepRegion, CohortComponentModel.stepRegion]
  rw [calculate_births_congr m pop' r (fun a ha => h a Gender.female (by
    have h' : ∃ i, i < 35 ∧ a = 15 + i := by
      simpa [CohortComponentModel.fertileAges, List.mem_range'] using ha
    omega))]
  simp only
  rw [foldl_congr_fun _ _ _ _ (fun b p hp => stepCohort_congr m pop' r p.1 p.2 b
    (h p.1 p.2 ((mem_agePairs p.1 p.2).mp (by simpa using hp))))]

end C10sec
end Popula

namespace Popula
section C10keys

theorem stepCohort_keys (regions : List String) (m : CohortComponentModel)
    (r : String) (a : Nat) (g : Gender) (acc : StepAcc) (hr : r ∈ regions)
    (hacc : ∀ e ∈ acc.new_population, e.1.1 ≤ 120 ∧ e.1.2.2 ∈ regions) :
    ∀ e ∈ (m.stepCohort r a g acc).new_population,
      e.1.1 ≤ 120 ∧ e.1.2.2 ∈ regions := by
  rw [CohortComponentModel.stepCohort]
  simp only
  split
  · exact hacc
  · split
    · refine addTo_forall_keys _ _ _ (fun k => k.1 ≤ 120 ∧ k.2.2 ∈ regions) hacc ⟨?_, hr⟩
      rw [MAX_AGE]
      split <;> rename_i hage <;> omega
    · exact hacc

theorem foldCohorts_keys (regions : List String) (m : CohortComponentModel)
    (r : String) (L : List (Nat × Gender)) (b : StepAcc) (hr : r ∈ regions)
    (hb : ∀ e ∈ b.new_population, e.1.1 ≤ 120 ∧ e.1.2.2 ∈ regions) :
    ∀ e ∈ (L.foldl (fun a p => m.stepCohort r p.1 p.2 a) b).new_population,
      e.1.1 ≤ 120 ∧ e.1.2.2 ∈ regions := by
  induction L generalizing b with
  | nil => exact hb
  | cons x rest ih =>
    rw [List.foldl_cons]
    exact ih _ (stepCohort_keys regions m r x.1 x.2 b hr hb)

theorem stepRegion_keys (regions : List String) (m : CohortComponentModel)
    (acc : StepAcc) (r : String) (hr : r ∈ regions)
    (hacc : ∀ e ∈ acc.new_population, e.1.1 ≤ 120 ∧ e.1.2.2 ∈ regions) :
    ∀ e ∈ (m.stepRegion acc r).new_population,
      e.1.1 ≤ 120 ∧ e.1.2.2 ∈ regions := by
  rw [CohortComponentModel.stepRegion]
  simp only
  refine foldCohorts_keys regions m r CohortComponentModel.agePairs _ hr ?_
  split_ifs with h1 h2 h2
  · exact addTo_forall_keys _ _ _ (fun k => k.1 ≤ 120 ∧ k.2.2 ∈ regions)
      (addTo_forall_keys _ _ _ (fun k => k.1 ≤ 120 ∧ k.2.2 ∈ regions) hacc
        ⟨by omega, hr⟩) ⟨by omega, hr⟩
  · exact addTo_forall_keys _ _ _ (fun k => k.1 ≤ 120 ∧ k.2.2 ∈ regions) hacc ⟨by omega, hr⟩
  · exact addTo_forall_keys _ _ _ (fun k => k.1 ≤ 120 ∧ k.2.2 ∈ regions) hacc ⟨by omega, hr⟩
  · exact hacc

theorem foldRegions_keys (m : CohortComponentModel)
    (regions rs : List String) (hsub : ∀ r ∈ rs, r ∈ regions) (acc : StepAcc)
    (hacc : ∀ e ∈ acc.new_population, e.1.1 ≤ 120 ∧ e.1.2.2 ∈ regions) :
    ∀ e ∈ (rs.foldl m.stepRegion acc).new_population,
      e.1.1 ≤ 120 ∧ e.1.2.2 ∈ regions := by
  induction rs generalizing acc with
  | nil => exact hacc
  | cons r rest ih =>
    rw [List.foldl_cons]
    exact ih (fun x hx => hsub x (List.mem_cons_of_mem r hx)) _
      (stepRegion_keys regions m acc r (hsub r (List.mem_cons_self r rest))
        hacc)

theorem ccm_pop_def (m : CohortComponentModel) (year : Nat)
    (regions : List String) :
    (m.project_one_year year regions).1.population
      = (regions.foldl m.stepRegion ⟨[], 0, 0, 0⟩).new_population := rfl

theorem ccm_births_def (m : CohortComponentModel) (year : Nat)
    (regions : List String) :
    (m.project_one_year year regions).2.births
      = (regions.foldl m.stepRegion ⟨[], 0, 0, 0⟩).births := rfl

theorem ccm_deaths_def (m : CohortComponentModel) (year : Nat)
    (regions : List String) :
    (m.project_one_year year regions).2.deaths
      = (regions.foldl m.stepRegion ⟨[], 0, 0, 0⟩).deaths := rfl

theorem ccm_migration_def (m : CohortComponentModel) (year : Nat)
    (regions : List String) :
    (m.project_one_year year regions).2.net_migration
      = (regions.foldl m.stepRegion ⟨[], 0, 0, 0⟩).migration := rfl

theorem ccm_total_def (m : CohortComponentModel) (year : Nat)
    (regions : List String) :
    (m.project_one_year year regions).2.total_population
      = mtotal (regions.foldl m.stepRegion ⟨[], 0, 0, 0⟩).new_population := rfl

theorem project_filter_acc (m : CohortComponentModel)
    (regions : List String) :
    regions.foldl (CohortComponentModel.stepRegion
        { m with population := m.population.filter (fun e =>
          decide (e.1.1 ≤ 120) && decide (e.1.2.2 ∈ regions)) })
      ⟨[], 0, 0, 0⟩
      = regions.foldl m.stepRegion ⟨[], 0, 0, 0⟩ := by
  refine foldl_congr_fun _ _ _ _ ?_
  intro b r hr
  refine stepRegion_congr m _ r b ?_
  intro a g ha
  refine mget_filter m.population (fun k => decide (k.1 ≤ 120) && decide (k.2.2 ∈ regions)) (a, g, r) ?_
  simp only [Bool.and_eq_true, decide_eq_true_iff]
  exact ⟨ha, hr⟩

end C10keys
end Popula

namespace Popula
section C10top

theorem project_filter_eq (m : CohortComponentModel) (year : Nat)
    (regions : List String) :
    (CohortComponentModel.project_one_year
        { m with population := m.population.filter (fun e =>
          decide (e.1.1 ≤ 120) && decide (e.1.2.2 ∈ regions)) }
        year regions).1.population
      = (m.project_one_year year regions).1.population
    ∧ (CohortComponentModel.project_one_year
        { m with population := m.population.filter (fun e =>
          decide (e.1.1 ≤ 120) && decide (e.1.2.2 ∈ regions)) }
        year regions).2.births
      = (m.project_one_year year regions).2.births
    ∧ (CohortComponentModel.project_one_year
        { m with population := m.population.filter (fun e =>
          decide (e.1.1 ≤ 120) && decide (e.1.2.2 ∈ regions)) }
        year regions).2.deaths
      = (m.project_one_year year regions).2.deaths
    ∧ (CohortComponentModel.project_one_year
        { m with population := m.population.filter (fun e =>
          decide (e.1.1 ≤ 120) && decide (e.1.2.2 ∈ regions)) }
        year regions).2.net_migration
      = (m.project_one_year year regions).2.net_migration
    ∧ (CohortComponentModel.project_one_year
        { m with population := m.population.filter (fun e =>
          decide (e.1.1 ≤ 120) && decide (e.1.2.2 ∈ regions)) }
        year regions).2.total_population
      = (m.project_one_year year regions).2.total_population := by
  have h := project_filter_acc m regions
  refine ⟨?_, ?_, ?_, ?_, ?_⟩
  · rw [ccm_pop_def, ccm_pop_def, h]
  · rw [ccm_births_def, ccm_births_def, h]
  · rw [ccm_deaths_def, ccm_deaths_def, h]
  · rw [ccm_migration_def, ccm_migration_def, h]
  · rw [ccm_total_def, ccm_total_def, h]

theorem project_keys_in_domain (m : CohortComponentModel) (year : Nat)
    (regions : List String) :
    ∀ e ∈ (m.project_one_year year regions).1.population,
      e.1.1 ≤ 120 ∧ e.1.2.2 ∈ regions := by
  rw [ccm_pop_def]
  exact foldRegions_keys m regions regions (fun r hr => hr) ⟨[], 0, 0, 0⟩
    (by intro e he; cases he)

end C10top
end Popula

namespace Popula

/-- C10: every call to project_one_year rebuilds the population only from
cohorts with age at most 120 in a listed region (part 1: the resulting
population mentions only such keys, so any out-of-domain stored cohort is
silently dropped), and the out-of-domain cohorts never influence the
returned population, births, deaths, net_migration or total_population
(part 2: removing them from the input state beforehand changes nothing). -/
theorem out_of_domain_cohorts_dropped :
    (∀ (m : CohortComponentModel) (year : Nat) (regions : List String),
        ∀ e ∈ (m.project_one_year year regions).1.population,
          e.1.1 ≤ 120 ∧ e.1.2.2 ∈ regions)
    ∧ (∀ (m : CohortComponentModel) (year : Nat) (regions : List String),
        (CohortComponentModel.project_one_year
            { m with population := m.population.filter (fun e =>
              decide (e.1.1 ≤ 120) && decide (e.1.2.2 ∈ regions)) }
            year regions).1.population
          = (m.project_one_year year regions).1.population
        ∧ (CohortComponentModel.project_one_year
            { m with population := m.population.filter (fun e =>
              decide (e.1.1 ≤ 120) && decide (e.1.2.2 ∈ regions)) }
            year regions).2.births
          = (m.project_one_year year regions).2.births
        ∧ (CohortComponentModel.project_one_year
            { m with population := m.population.filter (fun e =>
              decide (e.1.1 ≤ 120) && decide (e.1.2.2 ∈ regions)) }
            year regions).2.deaths
          = (m.project_one_year year regions).2.deaths
        ∧ (CohortComponentModel.project_one_year
            { m with population := m.population.filter (fun e =>
              decide (e.1.1 ≤ 120) && decide (e.1.2.2 ∈ regions)) }
            year regions).2.net_migration
          = (m.project_one_year year regions).2.net_migration
        ∧ (CohortComponentModel.project_one_year
            { m with population := m.population.filter (fun e =>
              decide (e.1.1 ≤ 120) && decide (e.1.2.2 ∈ regions)) }
            year regions).2.total_population
          = (m.project_one_year year regions).2.total_population) :=
  ⟨project_keys_in_domain, project_filter_eq⟩

end Popula

namespace Popula
section FinalClaims
attribute [local semireducible] Rat.add Rat.mul Rat.sub Rat.inv
set_option maxRecDepth 2000

theorem stepCohort_migration_tally (m : CohortComponentModel) (r : String)
    (a : Nat) (g : Gender) (acc : StepAcc) :
    (m.stepCohort r a g acc).migration
      = acc.migration
        + (migStep (mget m.population (a, g, r))
            (m.get_migration_rate a g r)).2 := by
  rw [CohortComponentModel.stepCohort]
  simp only []
  split_ifs <;> rfl

theorem migStep_neg_spec (count migration : ℚ) (hc : 0 ≤ count)
    (hm : migration < 0) :
    (migStep count migration).1 = count - rmin (-migration) count
      ∧ (migStep count migration).2 = -(rmin (-migration) count)
      ∧ 0 ≤ (migStep count migration).1
      ∧ rmin (-migration) count ≤ count
      ∧ rmin (-migration) count ≤ -migration := by
  have hne : migration ≠ 0 := by intro h; rw [h] at hm; exact lt_irrefl 0 hm
  have hng : ¬ migration > 0 := by linarith
  rw [migStep, if_pos hne, if_neg hng]
  simp only []
  rw [rmin]
  split_ifs with h
  · exact ⟨trivial, trivial, by linarith, by linarith, le_refl _⟩
  · exact ⟨trivial, trivial, by linarith, le_refl _, by linarith⟩

/-- C3: the age-120 accumulation bucket. In the CCM engine a 100-person
age-120 cohort with zero mortality is still at age 120 after one step, but
the DemographicEngine drops it entirely: its `if age < 120` guard never
re-inserts age-120 survivors, so the same cohort ends at count 0 — the two
engines diverge and the DemographicEngine contradicts the claim. -/
theorem age120_open_bucket :
    mget exAge120CCM.population (120, Gender.male, "A") = 100
      ∧ (exAge120CCM.project_one_year 2024 ["A"]).1.get_count 120
          Gender.male "A" = 100
      ∧ mget exAge120DE.population (120, Gender.male, "A") = 100
      ∧ (exAge120DE.project_year 2024 ["A"]).1.get_cohort_count 120
          Gender.male "A" = 0
      ∧ (exAge120DE.project_year 2024 ["A"]).2.deaths = 0
      ∧ (exAge120DE.project_year 2024 ["A"]).2.total_population = 0 := by
  refine ⟨by decide, ?_, by decide, ?_, ?_, ?_⟩
  · rw [exA120_step]; decide
  · rw [exA120DE_step]; decide
  · rw [exA120DE_step]
  · rw [exA120DE_step]

/-- C4: negative net migration removes exactly min(|migration|, count): the
post-migration count and the migration tally follow that formula, the
result is never negative, and each cohort step adds exactly the capped
amount to the running net_migration tally; on the concrete -150-vs-100
model the step removes exactly 100, reports net_migration -100, and leaves
the cohort at 0. -/
theorem migration_capped :
    (∀ count migration : ℚ, 0 ≤ count → migration < 0 →
        (migStep count migration).1 = count - rmin (-migration) count
          ∧ (migStep count migration).2 = -(rmin (-migration) count)
          ∧ 0 ≤ (migStep count migration).1
          ∧ rmin (-migration) count ≤ count
          ∧ rmin (-migration) count ≤ -migration)
      ∧ (∀ (m : CohortComponentModel) (r : String) (a : Nat) (g : Gender)
            (acc : StepAcc),
          (m.stepCohort r a g acc).migration
            = acc.migration
              + (migStep (mget m.population (a, g, r))
                  (m.get_migration_rate a g r)).2)
      ∧ mget exMigrationCapModel.population (30, Gender.male, "A") = 100
      ∧ exMigrationCapModel.get_migration_rate 30 Gender.male "A" = -150
      ∧ (exMigrationCapModel.project_one_year 2024 ["A"]).2.net_migration
          = -100
      ∧ (exMigrationCapModel.project_one_year 2024 ["A"]).1.get_count 31
          Gender.male "A" = 0
      ∧ (exMigrationCapModel.project_one_year 2024 ["A"]).1.get_count 30
          Gender.male "A" = 0 := by
  refine ⟨migStep_neg_spec, stepCohort_migration_tally, by decide, by decide,
    ?_, ?_, ?_⟩
  · rw [exMig_step]
  · rw [exMig_step]; decide
  · rw [exMig_step]; decide

/-- C5: `Shock::applies_to` is exactly the conjunction of the year-range,
region, gender and age filters (each empty or absent filter meaning all),
and `apply_shocks` multiplies the base rate by the modifiers of the
applicable shocks of the requested kind in stored order, then clamps the
product into [0, 1]. -/
theorem shock_semantics :
    (∀ (s : Shock) (year : Nat) (r : String) (g : Gender) (age : Nat),
        s.applies_to year r g age = true
          ↔ (s.start_year ≤ year ∧ year ≤ s.end_year
              ∧ (s.target_regions = [] ∨ r ∈ s.target_regions)
              ∧ (s.target_genders = [] ∨ g ∈ s.target_genders)
              ∧ (s.target_ages = none
                  ∨ ∃ ag, s.target_ages = some ag
                      ∧ ag.min ≤ age ∧ age ≤ ag.max)))
      ∧ (∀ (e : DemographicEngine) (t : ShockType) (base : ℚ)
            (year age : Nat) (g : Gender) (r : String),
          e.apply_shocks t base year age g r
            = Min.min (Max.max (base * ((e.shocks.filter (fun s =>
                decide (s.shock_type = t) && s.applies_to year r g age)).map
                  Shock.modifier).prod) 0) 1) :=
  ⟨applies_to_iff, apply_shocks_eq⟩

/-- C6: the growth-rate rules. The CCM engine follows all three clauses of
the claim ((new-old)/old*100 for positive old total, 100 for zero old and
positive new total, 0 for zero old and zero new total), but the
DemographicEngine returns 0 whenever the old total is not positive, even
when the new total is positive — its zero-old-positive-new clause is 0, not
100. -/
theorem growth_rate_rules :
    (∀ (m : CohortComponentModel) (year : Nat) (regions : List String),
        (0 < mtotal m.population →
          (m.project_one_year year regions).2.growth_rate
            = ((m.project_one_year year regions).2.total_population
                - mtotal m.population) / mtotal m.population * 100)
          ∧ (mtotal m.population = 0 →
              0 < (m.project_one_year year regions).2.total_population →
              (m.project_one_year year regions).2.growth_rate = 100)
          ∧ (mtotal m.population = 0 →
              (m.project_one_year year regions).2.total_population = 0 →
              (m.project_one_year year regions).2.growth_rate = 0))
      ∧ (∀ (e : DemographicEngine) (year : Nat) (regions : List String),
          (0 < mtotal e.population →
            (e.project_year year regions).2.growth_rate
              = ((e.project_year year regions).2.total_population
                  - mtotal e.population) / mtotal e.population * 100)
            ∧ (¬ 0 < mtotal e.population →
                (e.project_year year regions).2.growth_rate = 0)) := by
  constructor
  · intro m year regions
    refine ⟨fun h => ?_, fun h0 hpos => ?_, fun h0 hz => ?_⟩
    · rw [ccm_growth_def, if_pos h]
    · rw [ccm_growth_def, if_neg (by rw [h0]; exact lt_irrefl 0),
        if_pos hpos]
    · rw [ccm_growth_def, if_neg (by rw [h0]; exact lt_irrefl 0),
        if_neg (by rw [hz]; exact lt_irrefl 0)]
  · intro e year regions
    refine ⟨fun h => ?_, fun h => ?_⟩
    · rw [de_growth_def, if_pos h]
    · rw [de_growth_def, if_neg h]

/-- C6 counterexample: a DemographicEngine whose stored counts sum to 0
pre-step while the post-step total is 5 > 0 still reports growth_rate 0,
where the claim demands 100. -/
theorem growth_rate_cex :
    mtotal exGrowthDE.population = 0
      ∧ (exGrowthDE.project_year 2024 ["A"]).2.total_population = 5
      ∧ (exGrowthDE.project_year 2024 ["A"]).2.growth_rate = 0 := by
  refine ⟨by decide, ?_, ?_⟩ <;> rw [exGrowth_step]

/-- C7: a region with population but no configured mortality (or fertility)
table is skipped by DemographicEngine::project_year — but skipping means
its cohorts are never copied into the freshly built population map, so the
region is erased (count drops from 100 to 0 with zero deaths), not frozen
as the claim states. -/
theorem missing_table_region_erased :
    tlookup exMissingTablesDE.mortality_tables "A" = none
      ∧ mget exMissingTablesDE.population (30, Gender.male, "A") = 100
      ∧ (exMissingTablesDE.project_year 2024 ["A"]).1.get_cohort_count 30
          Gender.male "A" = 0
      ∧ (exMissingTablesDE.project_year 2024 ["A"]).2.births = 0
      ∧ (exMissingTablesDE.project_year 2024 ["A"]).2.deaths = 0
      ∧ (exMissingTablesDE.project_year 2024 ["A"]).2.total_population
          = 0 := by
  decide

/-- C8: what validation exists. `Scenario::validate` does flag a base year
at or past the end year, an empty region list, and a shock outside the
scenario year range, and the handler run_projection rejects malformed
requests before computing any year — but the engine run path never calls
`Scenario::validate` (see the counterexample theorem). -/
theorem validation_rules :
    (∀ s : Scenario, s.base_year ≥ s.end_year → (s.validate).valid = false)
      ∧ (∀ s : Scenario, s.regions = [] → (s.validate).valid = false)
      ∧ (∀ s : Scenario,
          (∃ sh ∈ s.shocks,
            sh.start_year < s.base_year ∨ s.end_year < sh.end_year) →
          (s.validate).valid = false)
      ∧ (∀ req : ProjectionRunRequest, req.base_year ≥ req.end_year →
          ∃ msg, run_projection req = Except.error msg) :=
  ⟨validate_not_valid_of_base_ge, validate_not_valid_of_no_regions,
    validate_not_valid_of_shock_outside, run_projection_rejects⟩

/-- C8 counterexample: a scenario with base_year = end_year (malformed per
the claim) is run by DemographicEngine::run_projection without any
validation and still produces a ProjectionYear record — the run starts. -/
theorem validation_never_runs_cex :
    exScenarioEqYears.base_year ≥ exScenarioEqYears.end_year
      ∧ (DemographicEngine.new.run_projection exScenarioEqYears
          [⟨30, Gender.male, "A", 100⟩] [] []).2.years.length = 1 := by
  decide

theorem calculate_metadata_spec_witness :
    (∀ c ∈ exMetadataCohorts, 0 ≤ c.count)
      ∧ (calculate_metadata exMetadataCohorts).total_population
          = (exMetadataCohorts.map (fun c => c.count)).sum :=
  ⟨by decide, (calculate_metadata_spec exMetadataCohorts (by decide)).1⟩

end FinalClaims
end Popula
